import Mathlib

/-!
Verification of the CRML web playground against its specification.

The development shallowly embeds the TypeScript sources:
  * `src/web/lib/crmlInclusions.ts`       (inclusion-toggle engine)
  * `src/web/app/playground/PlaygroundClient.tsx` (bundle composer)
  * `src/web/app/api/validate/route.ts`   (error sanitizer)
  * `src/web/app/api/simulate/route.ts`   (simulate endpoint)

Parsed YAML/JSON values are modelled by the inductive `Yaml`; JavaScript
objects are association lists in insertion order, JavaScript numbers are
modelled as integers (all numbers the claims concern are integers), and
the external `js-yaml` `load`/`dump` functions are parameters of the
text-level functions.  JavaScript `Set<string>` arguments are modelled as
lists of their elements (membership via `List.contains`).
-/

/-- A parsed YAML/JSON value (model of the values returned by `yaml.load`). -/
inductive Yaml where
  | nul
  | bool (b : Bool)
  | num (n : Int)
  | str (s : String)
  | arr (items : List Yaml)
  | obj (fields : List (String × Yaml))
deriving Repr

namespace Yaml

/-- First-occurrence key lookup in an object's field list (JS property read;
parsed JS objects never carry duplicate keys). -/
def getKey : List (String × Yaml) → String → Option Yaml
  | [], _ => none
  | (k, v) :: rest, key => if k = key then some v else getKey rest key

/-- JS property write: replace the first binding of `key`, append if absent. -/
def setKey : List (String × Yaml) → String → Yaml → List (String × Yaml)
  | [], key, v => [(key, v)]
  | (k, w) :: rest, key, v =>
    if k = key then (k, v) :: rest else (k, w) :: setKey rest key v

/-- JS `delete obj[key]`: remove the binding of `key` (a JS object has at
most one binding per key; the model removes every one). -/
def delKey (l : List (String × Yaml)) (key : String) : List (String × Yaml) :=
  l.filter (fun kv => kv.1 ≠ key)

/-- `isRecord(value)`: a non-null, non-array object. -/
def asRecord? : Option Yaml → Option (List (String × Yaml))
  | some (obj fields) => some fields
  | _ => none

/-- `typeof v === "string"` on an optional property. -/
def isStrOpt : Option Yaml → Bool
  | some (str _) => true
  | _ => false

/-- `asStringArray(value)`: keep only the string elements of an array,
anything else gives `[]` (crmlInclusions.ts, lines 15-17). -/
def asStringArray : Option Yaml → List String
  | some (arr items) => items.filterMap fun v =>
      match v with
      | str s => some s
      | _ => none
  | _ => []

end Yaml

/-! ## Inclusion-toggle engine (`src/web/lib/crmlInclusions.ts`) -/

/-- JS `Array.from(new Set(values))`: deduplicate keeping first occurrences. -/
def uniqFirst : List String → List String
  | [] => []
  | x :: xs => x :: uniqFirst (xs.filter (fun y => y ≠ x))
termination_by l => l.length
decreasing_by
  simp only [List.length_cons]
  exact Nat.lt_succ_of_le (List.length_filter_le _ _)

/-- `uniqSorted(values)` (crmlInclusions.ts, lines 19-21): deduplicate and sort.
The `localeCompare` comparator is modelled by the lexicographic order on
`String`; the identities proved below only use that it is a linear order. -/
def uniqSorted (values : List String) : List String :=
  List.insertionSort (· ≤ ·) (uniqFirst values)

/-- `extractControlIdsFromControlsArray` (lines 30-45): a bare string entry
contributes itself, an object entry with a string `id` contributes that id,
anything else contributes nothing. -/
def extractControlIdsFromControlsArray (controls : Option Yaml) : List String :=
  match controls with
  | some (Yaml.arr entries) =>
    entries.filterMap fun e =>
      match e with
      | Yaml.str s => some s
      | Yaml.obj o =>
        match Yaml.getKey o "id" with
        | some (Yaml.str i) => some i
        | _ => none
      | _ => none
  | _ => []

/-- The raw (neither deduplicated nor sorted) attack ids of a scenario
document: `meta?.["attck"]` as a string array. -/
def attacksRaw (doc : List (String × Yaml)) : List String :=
  Yaml.asStringArray ((Yaml.asRecord? (Yaml.getKey doc "meta")).bind (Yaml.getKey · "attck"))

/-- The raw control ids of a scenario document: extracted from
`scenario?.["controls"]`. -/
def controlsRaw (doc : List (String × Yaml)) : List String :=
  extractControlIdsFromControlsArray
    ((Yaml.asRecord? (Yaml.getKey doc "scenario")).bind (Yaml.getKey · "controls"))

/-- `extractScenarioInclusionsFromScenarioDoc` (lines 47-55). -/
def extractScenarioInclusions (doc : List (String × Yaml)) :
    List String × List String :=
  (uniqSorted (controlsRaw doc), uniqSorted (attacksRaw doc))

/-- The id sets extracted from a document (`CrmlInclusions` record). -/
structure CrmlInclusions where
  docKind : String
  controlIds : List String
  attackIds : List String
deriving Repr, DecidableEq

/-- Scenario bodies of a bundle's `portfolio_bundle.scenarios[]` entries. -/
def bundleScenarioEntries (doc : List (String × Yaml)) : List Yaml :=
  match Yaml.asRecord? (Yaml.getKey doc "portfolio_bundle") with
  | some bundle =>
    match Yaml.getKey bundle "scenarios" with
    | some (Yaml.arr l) => l
    | _ => []
  | none => []

/-- Per-entry extraction used in the bundle branch of
`tryExtractInclusionsFromYaml` (lines 80-88): non-record entries and entries
without a record `scenario` field contribute nothing. -/
def bundleEntryInclusions (entry : Yaml) : List String × List String :=
  match entry with
  | Yaml.obj eo =>
    match Yaml.asRecord? (Yaml.getKey eo "scenario") with
    | some sd => extractScenarioInclusions sd
    | none => ([], [])
  | _ => ([], [])

/-- The parsed-document part of `tryExtractInclusionsFromYaml`
(lines 65-97): classify by discriminator key and extract the id lists,
returning `null` when both are empty. -/
def detectDocInclusions (parsed : List (String × Yaml)) : Option CrmlInclusions :=
  if Yaml.isStrOpt (Yaml.getKey parsed "crml_scenario") then
    let ids := extractScenarioInclusions parsed
    if ids.1.isEmpty && ids.2.isEmpty then none
    else some ⟨"scenario", ids.1, ids.2⟩
  else if Yaml.isStrOpt (Yaml.getKey parsed "crml_portfolio_bundle") then
    let entries := bundleScenarioEntries parsed
    let allControls := entries.flatMap (fun e => (bundleEntryInclusions e).1)
    let allAttacks := entries.flatMap (fun e => (bundleEntryInclusions e).2)
    let controlIds := uniqSorted allControls
    let attackIds := uniqSorted allAttacks
    if controlIds.isEmpty && attackIds.isEmpty then none
    else some ⟨"portfolio_bundle", controlIds, attackIds⟩
  else none

/-- `tryExtractInclusionsFromYaml` (lines 57-98), with the external
`yaml.load` passed as `parse` (`none` models a parse exception). -/
def tryExtractInclusionsFromYaml (parse : String → Option Yaml)
    (yamlContent : String) : Option CrmlInclusions :=
  match parse yamlContent with
  | some (Yaml.obj parsed) => detectDocInclusions parsed
  | _ => none

/-- `filterControlsArray` (lines 100-110) restricted to array input (the call
site guards with `Array.isArray`). -/
def filterControlsArray (controls : List Yaml) (disabledControls : List String) :
    List Yaml :=
  controls.filter fun entry =>
    match entry with
    | Yaml.str s => !disabledControls.contains s
    | Yaml.obj o =>
      match Yaml.getKey o "id" with
      | some (Yaml.str i) => !disabledControls.contains i
      | _ => true
    | _ => true

/-- The `meta.attck` block of `applyScenarioTogglesToScenarioDoc`
(lines 116-123): filter the attack list, deleting the field when the
filtered list is empty.  In-place mutation is modelled by returning the
updated document. -/
def applyMetaAttckToggle (doc : List (String × Yaml))
    (disabledAttacks : List String) : List (String × Yaml) :=
  match Yaml.asRecord? (Yaml.getKey doc "meta") with
  | some meta =>
    match Yaml.getKey meta "attck" with
    | some (Yaml.arr items) =>
      let filteredAttacks :=
        (Yaml.asStringArray (some (Yaml.arr items))).filter
          (fun id => !disabledAttacks.contains id)
      if filteredAttacks.isEmpty then
        Yaml.setKey doc "meta" (Yaml.obj (Yaml.delKey meta "attck"))
      else
        Yaml.setKey doc "meta"
          (Yaml.obj (Yaml.setKey meta "attck"
            (Yaml.arr (filteredAttacks.map Yaml.str))))
    | _ => doc
  | none => doc

/-- The `scenario.controls` block of `applyScenarioTogglesToScenarioDoc`
(lines 125-132). -/
def applyControlsToggle (doc : List (String × Yaml))
    (disabledControls : List String) : List (String × Yaml) :=
  match Yaml.asRecord? (Yaml.getKey doc "scenario") with
  | some scenario =>
    match Yaml.getKey scenario "controls" with
    | some (Yaml.arr items) =>
      let filteredControls := filterControlsArray items disabledControls
      if filteredControls.isEmpty then
        Yaml.setKey doc "scenario" (Yaml.obj (Yaml.delKey scenario "controls"))
      else
        Yaml.setKey doc "scenario"
          (Yaml.obj (Yaml.setKey scenario "controls" (Yaml.arr filteredControls)))
    | _ => doc
  | none => doc

/-- `applyScenarioTogglesToScenarioDoc` (lines 112-133): the attack block
followed by the controls block. -/
def applyScenarioTogglesToScenarioDoc (doc : List (String × Yaml))
    (disabledControls disabledAttacks : List String) : List (String × Yaml) :=
  applyControlsToggle (applyMetaAttckToggle doc disabledAttacks) disabledControls

/-- The per-entry body of the `for (const scenarioEntry of scenarios)` loop
of `applyInclusionTogglesToYaml` (lines 166-171): entries that are not
records, or whose `scenario` field is not a record, are left untouched. -/
def applyBundleScenarioEntry (disabledControls disabledAttacks : List String)
    (entry : Yaml) : Yaml :=
  match entry with
  | Yaml.obj eo =>
    match Yaml.getKey eo "scenario" with
    | some (Yaml.obj sd) =>
      Yaml.obj (Yaml.setKey eo "scenario"
        (Yaml.obj (applyScenarioTogglesToScenarioDoc sd
          disabledControls disabledAttacks)))
    | _ => entry
  | _ => entry

/-- The document-level part of `applyInclusionTogglesToYaml` (lines 151-176):
`some doc'` is the mutated clone that gets re-serialized, `none` models the
early returns of the original text (kind not toggleable, bundle or
scenarios missing/ill-shaped). -/
def applyDocToggles (doc : List (String × Yaml))
    (disabledControls disabledAttacks : List String) :
    Option (List (String × Yaml)) :=
  if Yaml.isStrOpt (Yaml.getKey doc "crml_scenario") then
    some (applyScenarioTogglesToScenarioDoc doc disabledControls disabledAttacks)
  else if Yaml.isStrOpt (Yaml.getKey doc "crml_portfolio_bundle") then
    match Yaml.asRecord? (Yaml.getKey doc "portfolio_bundle") with
    | some bundle =>
      match Yaml.getKey bundle "scenarios" with
      | some (Yaml.arr scenarios) =>
        let scenarios' :=
          scenarios.map (applyBundleScenarioEntry disabledControls disabledAttacks)
        some (Yaml.setKey doc "portfolio_bundle"
          (Yaml.obj (Yaml.setKey bundle "scenarios" (Yaml.arr scenarios'))))
      | _ => none
    | none => none
  else none

/-- `applyInclusionTogglesToYaml` (lines 135-177), with `yaml.load` as
`parse` (`none` = exception) and `yaml.dump` as `dump`.  The deep clone is
pure in the model, so it is the identity. -/
def applyInclusionTogglesToYaml (parse : String → Option Yaml)
    (dump : Yaml → String) (yamlContent : String)
    (disabledControls disabledAttacks : List String) : String :=
  if disabledControls.isEmpty && disabledAttacks.isEmpty then yamlContent
  else
    match parse yamlContent with
    | some (Yaml.obj parsed) =>
      match applyDocToggles parsed disabledControls disabledAttacks with
      | some doc' => dump (Yaml.obj doc')
      | none => yamlContent
    | _ => yamlContent

/-- The id a controls-array entry contributes (proof-layer view shared by
`extractControlIdsFromControlsArray` and `filterControlsArray`). -/
def controlEntryId? : Yaml → Option String
  | Yaml.str s => some s
  | Yaml.obj o =>
    match Yaml.getKey o "id" with
    | some (Yaml.str i) => some i
    | _ => none
  | _ => none

/-- The id lists carried by a detection result; a `null` result stands for
"no ids of either kind". -/
def inclusionIdLists : Option CrmlInclusions → List String × List String
  | some i => (i.controlIds, i.attackIds)
  | none => ([], [])

/-- Witness scenario document for claim C1: one disabled control. -/
def c1WitDoc : List (String × Yaml) :=
  [("crml_scenario", Yaml.str "1.0"),
   ("scenario", Yaml.obj [("controls", Yaml.arr [Yaml.str "c1", Yaml.str "c2"])])]

/-- The C1 witness document after disabling control `c1`. -/
def c1WitDoc' : List (String × Yaml) :=
  [("crml_scenario", Yaml.str "1.0"),
   ("scenario", Yaml.obj [("controls", Yaml.arr [Yaml.str "c2"])])]

/-- A concrete parser for the C1 witness: maps text `T` to the witness
document and text `D` (its serialization) to the toggled document. -/
def c1WitParse : String → Option Yaml := fun s =>
  if s = "T" then some (Yaml.obj c1WitDoc)
  else if s = "D" then some (Yaml.obj c1WitDoc') else none

/-- A concrete serializer for the C1 witness. -/
def c1WitDump : Yaml → String := fun _ => "D"

/-- Witness scenario document for claim C10: `controls` holds a string id
and a number entry. -/
def c10WitDoc : List (String × Yaml) :=
  [("crml_scenario", Yaml.str "1.0"),
   ("scenario", Yaml.obj [("controls", Yaml.arr [Yaml.str "c1", Yaml.num 7])])]

/-! ## Bundle composer (`src/web/app/playground/PlaygroundClient.tsx`) -/

/-- Document kinds (the `Example["docKind"]` union). -/
inductive DocKind where
  | portfolio_bundle
  | scenario
  | portfolio
  | attack_catalog
  | control_catalog
  | control_relationships
  | attack_control_relationships
  | assessment
  | fx_config
  | unknown
deriving Repr, DecidableEq, BEq

/-- A selectable example document (the fields read by the composer; the
UI-only `id`/`description` fields are omitted). -/
structure Example where
  filename : String
  name : String
  docKind : Option DocKind
  content : String
deriving Repr

/-- Lower-case ASCII letter or digit (the `[a-z0-9]` class of `slugifyId`,
applied after lower-casing). -/
def isAlnumLower (c : Char) : Bool :=
  (('a' ≤ c && c ≤ 'z') || ('0' ≤ c && c ≤ '9'))

/-- `replaceAll(/\.[a-z0-9]+$/gi, "")`: drop a final `.ext` whose extension
is a non-empty alphanumeric run. -/
def stripExtension (cs : List Char) : List Char :=
  let rev := cs.reverse
  let ext := rev.takeWhile isAlnumLower
  let rest := rev.dropWhile isAlnumLower
  match rest with
  | '.' :: remaining => if ext.isEmpty then cs else remaining.reverse
  | _ => cs

/-- Collapse consecutive hyphens to one. -/
def collapseHyphens : List Char → List Char
  | [] => []
  | [c] => [c]
  | c :: d :: rest =>
    if c = '-' && d = '-' then collapseHyphens (d :: rest)
    else c :: collapseHyphens (d :: rest)

/-- `replaceAll(/[^a-z0-9]+/g, "-")`: each maximal run of non-alphanumeric
characters becomes a single hyphen. -/
def hyphenateRuns (cs : List Char) : List Char :=
  collapseHyphens (cs.map (fun c => if isAlnumLower c then c else '-'))

/-- `replaceAll(/(^-+)|(-+$)/g, "")`: strip leading and trailing hyphen
runs. -/
def trimHyphens (cs : List Char) : List Char :=
  ((cs.dropWhile (fun c => c = '-')).reverse.dropWhile (fun c => c = '-')).reverse

/-- JS `String.prototype.trim()` over the character list. -/
def trimChars (cs : List Char) : List Char :=
  ((cs.dropWhile Char.isWhitespace).reverse.dropWhile Char.isWhitespace).reverse

/-- `slugifyId` (PlaygroundClient.tsx, lines 55-61).  `trim`/`toLowerCase`
are modelled character-wise. -/
def slugifyId (input : String) : String :=
  let trimmed := (trimChars input.data).map Char.toLower
  let withoutExt := stripExtension trimmed
  let hyphenated := hyphenateRuns withoutExt
  let cleaned := trimHyphens hyphenated
  let sliced := cleaned.take 48
  String.mk (trimChars (if sliced.isEmpty then "item".data else sliced))

/-- `parseYamlRootRecord` (lines 63-75): the external `yaml.load` is the
`parse` parameter (`Except.error e` models a thrown exception with message
`e`); returns the parsed record, or `none` together with the error pushed
onto the caller's list. -/
def parseYamlRootRecord (parse : String → Except String Yaml) (content : String)
    (label : String) : Option (List (String × Yaml)) × List String :=
  match parse content with
  | Except.error e =>
    (none, ["Failed to parse YAML for " ++ label ++ ": " ++ e])
  | Except.ok (Yaml.obj fields) => (some fields, [])
  | Except.ok _ =>
    (none, ["Invalid YAML root for " ++ label ++ " (must be a mapping/object)."])

/-- A selected example together with its parsed root record. -/
structure ParsedDoc where
  ex : Example
  doc : List (String × Yaml)
deriving Repr

/-- `packFilenames` (lines 103-104). -/
def packFilenames (packDocs : List ParsedDoc) (kind : DocKind) : List String :=
  (packDocs.filter (fun p => p.ex.docKind == some kind)).map
    (fun p => p.ex.filename)

/-- `packDocsForKind` (lines 106-107). -/
def packDocsForKind (packDocs : List ParsedDoc) (kind : DocKind) : List Yaml :=
  (packDocs.filter (fun p => p.ex.docKind == some kind)).map
    (fun p => Yaml.obj p.doc)

/-- The scenario reference entries written into the portfolio body
(lines 129-132): `{id: slug(filename), path: filename}`. -/
def scenarioRefEntries (scenarioDocs : List ParsedDoc) : List Yaml :=
  scenarioDocs.map (fun s => Yaml.obj
    [("id", Yaml.str (slugifyId s.ex.filename)),
     ("path", Yaml.str s.ex.filename)])

/-- The mutations `rewritePortfolioForBundle` performs on the record
portfolio body (lines 117-145). -/
def rewritePortfolioBody (portfolioBody : List (String × Yaml))
    (scenarioDocs packDocs : List ParsedDoc) : List (String × Yaml) :=
    let body1 :=
      match Yaml.getKey portfolioBody "semantics" with
      | some (Yaml.obj semantics) =>
        match Yaml.getKey semantics "constraints" with
        | some (Yaml.obj constraints) =>
          Yaml.setKey portfolioBody "semantics" (Yaml.obj
            (Yaml.setKey semantics "constraints" (Yaml.obj
              (Yaml.setKey
                (Yaml.setKey constraints "require_paths_exist" (Yaml.bool false))
                "validate_scenarios" (Yaml.bool false)))))
        | _ => portfolioBody
      | _ => portfolioBody
    let body2 := Yaml.setKey body1 "scenarios" (Yaml.arr (scenarioRefEntries scenarioDocs))
    let controlCatalogPaths := packFilenames packDocs DocKind.control_catalog
    let assessmentPaths := packFilenames packDocs DocKind.assessment
    let controlRelPaths := packFilenames packDocs DocKind.control_relationships
    let attackCatalogPaths := packFilenames packDocs DocKind.attack_catalog
    let attackControlRelPaths :=
      packFilenames packDocs DocKind.attack_control_relationships
    let body3 := if controlCatalogPaths.isEmpty then body2
      else Yaml.setKey body2 "control_catalogs"
        (Yaml.arr (controlCatalogPaths.map Yaml.str))
    let body4 := if assessmentPaths.isEmpty then body3
      else Yaml.setKey body3 "assessments" (Yaml.arr (assessmentPaths.map Yaml.str))
    let body5 := if controlRelPaths.isEmpty then body4
      else Yaml.setKey body4 "control_relationships"
        (Yaml.arr (controlRelPaths.map Yaml.str))
    let body6 := if attackCatalogPaths.isEmpty then body5
      else Yaml.setKey body5 "attack_catalogs"
        (Yaml.arr (attackCatalogPaths.map Yaml.str))
    let body7 := if attackControlRelPaths.isEmpty then body6
      else Yaml.setKey body6 "attack_control_relationships"
        (Yaml.arr (attackControlRelPaths.map Yaml.str))
    body7

/-- `rewritePortfolioForBundle` (lines 109-146): mutation of the parsed
portfolio document is modelled by returning the updated document; a
non-record `portfolio` body leaves the document unchanged (early return). -/
def rewritePortfolioForBundle (portfolioDoc : List (String × Yaml))
    (scenarioDocs packDocs : List ParsedDoc) : List (String × Yaml) :=
  match Yaml.getKey portfolioDoc "portfolio" with
  | some (Yaml.obj portfolioBody) =>
    Yaml.setKey portfolioDoc "portfolio"
      (Yaml.obj (rewritePortfolioBody portfolioBody scenarioDocs packDocs))
  | _ => portfolioDoc

/-- One `includePacks(kind, field)` call of `buildBundleObject`
(lines 168-171): add the field only when at least one parsed pack of the
kind exists. -/
def includePacksStep (packDocs : List ParsedDoc) (body : List (String × Yaml))
    (kind : DocKind) (field : String) : List (String × Yaml) :=
  let docs := packDocsForKind packDocs kind
  if docs.isEmpty then body else Yaml.setKey body field (Yaml.arr docs)

/-- The inlined scenario entries of the bundle body (lines 157-162). -/
def inlinedScenarioEntries (scenarioDocs : List ParsedDoc) : List Yaml :=
  scenarioDocs.map (fun s => Yaml.obj
    [("id", Yaml.str (slugifyId s.ex.filename)),
     ("weight", Yaml.num 1),
     ("source_path", Yaml.str ("examples/" ++ s.ex.filename)),
     ("scenario", Yaml.obj s.doc)])

/-- The `portfolio_bundle` body built by `buildBundleObject`
(lines 153-177): embedded portfolio, inlined scenarios, then one
`includePacks` call per pack kind. -/
def buildBundleBody (portfolioDoc : List (String × Yaml))
    (scenarioDocs packDocs : List ParsedDoc) : List (String × Yaml) :=
  let bundleBody0 : List (String × Yaml) :=
    [("portfolio", Yaml.obj portfolioDoc),
     ("scenarios", Yaml.arr (inlinedScenarioEntries scenarioDocs))]
  let body1 := includePacksStep packDocs bundleBody0 DocKind.control_catalog
    "control_catalogs"
  let body2 := includePacksStep packDocs body1 DocKind.assessment "assessments"
  let body3 := includePacksStep packDocs body2 DocKind.control_relationships
    "control_relationships"
  let body4 := includePacksStep packDocs body3 DocKind.attack_catalog
    "attack_catalogs"
  includePacksStep packDocs body4 DocKind.attack_control_relationships
    "attack_control_relationships"

/-- `buildBundleObject` (lines 148-180). -/
def buildBundleObject (portfolioDoc : List (String × Yaml))
    (scenarioDocs packDocs : List ParsedDoc) : List (String × Yaml) :=
  [("crml_portfolio_bundle", Yaml.str "1.0"),
   ("portfolio_bundle", Yaml.obj (buildBundleBody portfolioDoc scenarioDocs packDocs))]

/-- The result record of `buildPortfolioBundleYaml`. -/
structure ComposeResult where
  yaml : String
  errors : List String
  warnings : List String
deriving Repr

/-- `buildPortfolioBundleYaml` (lines 94-217).  The external `yaml.load` and
`yaml.dump` and the imported warning helpers `checkScenarioCompatibility`
and `detectMissingCatalogs` (crmlValidationHelpers.ts) are parameters;
errors accumulate in source order: selection errors, then portfolio,
scenario and pack parse errors. -/
def buildPortfolioBundleYaml
    (parse : String → Except String Yaml) (dump : Yaml → String)
    (checkScenarioCompatibility : List Example → List String)
    (detectMissingCatalogs : List Example → List Example → List String)
    (selectedPortfolio : Option Example)
    (selectedScenarios selectedPacks : List Example) : ComposeResult :=
  let errors0 : List String :=
    (if selectedPortfolio.isNone
      then ["Please select a portfolio to compose a bundle."] else [])
    ++ (if selectedScenarios.isEmpty
      then ["Please select at least one scenario to include in the bundle."] else [])
  let warnings : List String :=
    if selectedScenarios.isEmpty then []
    else checkScenarioCompatibility selectedScenarios
      ++ detectMissingCatalogs selectedScenarios selectedPacks
  let pp : Option (List (String × Yaml)) × List String :=
    match selectedPortfolio with
    | some p => parseYamlRootRecord parse p.content "portfolio"
    | none => (none, [])
  let sres := selectedScenarios.map (fun s =>
    (s, parseYamlRootRecord parse s.content ("scenario " ++ s.filename)))
  let scenarioDocs : List ParsedDoc := sres.filterMap (fun x =>
    match x.2.1 with
    | some d => some ⟨x.1, d⟩
    | none => none)
  let serrs := sres.flatMap (fun x => x.2.2)
  let pres := selectedPacks.map (fun p =>
    (p, parseYamlRootRecord parse p.content ("pack " ++ p.filename)))
  let packDocs : List ParsedDoc := pres.filterMap (fun x =>
    match x.2.1 with
    | some d => some ⟨x.1, d⟩
    | none => none)
  let perrs := pres.flatMap (fun x => x.2.2)
  let errors := errors0 ++ pp.2 ++ serrs ++ perrs
  match pp.1 with
  | none => ⟨"", errors, warnings⟩
  | some portfolioDoc =>
    if scenarioDocs.isEmpty then ⟨"", errors, warnings⟩
    else
      let portfolioDoc' := rewritePortfolioForBundle portfolioDoc scenarioDocs packDocs
      let bundle := buildBundleObject portfolioDoc' scenarioDocs packDocs
      ⟨dump (Yaml.obj bundle), errors, warnings⟩

/-- The id a scenario reference or inlined scenario entry carries. -/
def scenarioIdOfEntry : Yaml → Option String
  | Yaml.obj eo =>
    match Yaml.getKey eo "id" with
    | some (Yaml.str i) => some i
    | _ => none
  | _ => none

/-- The ids of the scenario references in the embedded portfolio body's
`scenarios` list (observation function for the lock-step invariant). -/
def portfolioScenarioRefIds (portfolioDoc : List (String × Yaml)) : List String :=
  match Yaml.getKey portfolioDoc "portfolio" with
  | some (Yaml.obj body) =>
    match Yaml.getKey body "scenarios" with
    | some (Yaml.arr entries) => entries.filterMap scenarioIdOfEntry
    | _ => []
  | _ => []

/-- The ids of the inlined scenario entries in the bundle's
`portfolio_bundle.scenarios` array. -/
def bundleInlinedScenarioIds (bundle : List (String × Yaml)) : List String :=
  match Yaml.getKey bundle "portfolio_bundle" with
  | some (Yaml.obj body) =>
    match Yaml.getKey body "scenarios" with
    | some (Yaml.arr entries) => entries.filterMap scenarioIdOfEntry
    | _ => []
  | _ => []

/-- A parser that always fails (for witnesses). -/
def failParse : String → Except String Yaml := fun _ => Except.error "parse error"

/-- A serializer returning a fixed marker string (for witnesses). -/
def constDump : Yaml → String := fun _ => "YAML"

/-- Warning helpers returning no warnings (for witnesses). -/
def noCompat : List Example → List String := fun _ => []

/-- Warning helpers returning no warnings (for witnesses). -/
def noMissing : List Example → List Example → List String := fun _ _ => []

/-- The five pack kinds with their bundle-body field names
(`buildBundleObject`, lines 173-177). -/
def packFields : List (DocKind × String) :=
  [(DocKind.control_catalog, "control_catalogs"),
   (DocKind.assessment, "assessments"),
   (DocKind.control_relationships, "control_relationships"),
   (DocKind.attack_catalog, "attack_catalogs"),
   (DocKind.attack_control_relationships, "attack_control_relationships")]

/-- A concrete control-catalog pack for the C5 witness. -/
def c5WitPack : ParsedDoc :=
  ⟨⟨"cc.yaml", "CC", some DocKind.control_catalog, "CC"⟩,
   [("crml_control_catalog", Yaml.str "1.0")]⟩

/-- The scenario selection used by the C4 counterexample and witness. -/
def c4ScenEx : Example := ⟨"s1.yaml", "S1", some DocKind.scenario, "SCEN"⟩

/-- The parsed C4 scenario. -/
def c4Scen : ParsedDoc := ⟨c4ScenEx, [("crml_scenario", Yaml.str "1.0")]⟩

/-- A portfolio document whose `portfolio` body is a scalar, not a mapping:
composition succeeds but the rewrite is skipped. -/
def c4BadPortfolioDoc : List (String × Yaml) :=
  [("crml_portfolio", Yaml.str "1.0"), ("portfolio", Yaml.num 5)]

/-- The portfolio selection wrapping `c4BadPortfolioDoc`. -/
def c4PortfolioEx : Example := ⟨"p.yaml", "P", some DocKind.portfolio, "PORT"⟩

/-- A parser mapping the C4 selections' contents to their parsed records. -/
def c4Parse : String → Except String Yaml := fun s =>
  if s = "PORT" then Except.ok (Yaml.obj c4BadPortfolioDoc)
  else if s = "SCEN" then Except.ok (Yaml.obj [("crml_scenario", Yaml.str "1.0")])
  else Except.error "unknown"

/-- A portfolio document whose `portfolio` body is a mapping. -/
def c4GoodPortfolioDoc : List (String × Yaml) := [("portfolio", Yaml.obj [])]

/-! ## Simulate endpoint (`src/web/app/api/simulate/route.ts`) -/

/-- `VALID_CURRENCIES` (lines 6-8). -/
def VALID_CURRENCIES : List String :=
  ["USD", "EUR", "GBP", "CHF", "JPY", "CAD", "AUD", "CNY", "INR", "BRL", "MXN",
   "KRW", "SGD", "HKD", "PKR"]

/-- `isValidCurrency` (lines 21-23). -/
def isValidCurrency (currency : String) : Bool :=
  VALID_CURRENCIES.contains currency

/-- JS `Number.parseInt(value, 10)`: skip leading whitespace, optional sign,
then a non-empty digit run; `NaN` (no digits) is `none`. -/
def jsParseInt (s : String) : Option Int :=
  let cs := s.data.dropWhile Char.isWhitespace
  let signed : Bool × List Char :=
    match cs with
    | '-' :: rest => (true, rest)
    | '+' :: rest => (false, rest)
    | _ => (false, cs)
  let digits := signed.2.takeWhile Char.isDigit
  if digits.isEmpty then none
  else
    let n : Nat := digits.foldl (fun acc c => acc * 10 + (c.toNat - '0'.toNat)) 0
    some (if signed.1 then -(n : Int) else (n : Int))

/-- `parseIntegerFromNumberOrString` (lines 14-19); JS numbers are modelled
as integers. -/
def parseIntegerFromNumberOrString (value : Option Yaml) : Option Int :=
  match value with
  | some (Yaml.num n) => some n
  | some (Yaml.str s) => jsParseInt s
  | _ => none

/-- The `run` echo carried by a simulation envelope. -/
structure RunEcho where
  runs : Option Int
  seed : Option Int
deriving Repr, DecidableEq

/-- The varying fields of the simulation failure envelopes (lines 25-41):
`success`, `errors`, `warnings` and `run`; the `engine`, `inputs` and
`results` fields are fixed constants in every envelope the route builds
(`results.measures = []`, `results.artifacts = []`) and are omitted. -/
structure SimEnvelope where
  success : Bool
  errors : List String
  warnings : List String
  run : Option RunEcho
deriving Repr, DecidableEq

/-- `errorEnvelope(message, status, run)` (lines 25-41), envelope part. -/
def errorEnvelope (message : String) (run : Option RunEcho) : SimEnvelope :=
  ⟨false, [message], [], run⟩

/-- The decision `POST` (lines 95-127) takes before any child process is
spawned: an early rejection (with HTTP status) or proceeding to
`runSimulation` with the validated parameters.  `body = none` models a
request body that is not valid JSON (caught by the outer try/catch). -/
inductive PostDecision where
  | rejected (envelope : SimEnvelope) (status : Nat)
  | proceed (yaml : String) (runs : Int) (seed : Option Int) (outputCurrency : String)
deriving Repr, DecidableEq

/-- The validation prefix of `POST` (lines 95-127). -/
def postSimulateDecision (body : Option Yaml) : PostDecision :=
  match body with
  | none =>
    PostDecision.rejected (errorEnvelope "Server error: invalid JSON body" none) 500
  | some b =>
    let fields? : Option (List (String × Yaml)) :=
      match b with
      | Yaml.obj f => some f
      | _ => none
    let yamlStr : Option String :=
      match fields? with
      | some f =>
        match Yaml.getKey f "yaml" with
        | some (Yaml.str s) => some s
        | _ => none
      | none => none
    let runsV : Option Yaml :=
      match fields? with
      | some f => Yaml.getKey f "runs"
      | none => none
    let seedV : Option Yaml :=
      match fields? with
      | some f => Yaml.getKey f "seed"
      | none => none
    let outputCurrency : String :=
      match fields? with
      | some f =>
        match Yaml.getKey f "outputCurrency" with
        | some (Yaml.str s) => s
        | _ => "USD"
      | none => "USD"
    match yamlStr with
    | none => PostDecision.rejected (errorEnvelope "YAML content is required" none) 400
    | some y =>
      if y.isEmpty then
        PostDecision.rejected (errorEnvelope "YAML content is required" none) 400
      else
        match parseIntegerFromNumberOrString runsV with
        | none =>
          PostDecision.rejected
            (errorEnvelope "Runs must be between 100 and 100,000" none) 400
        | some numRuns =>
          if numRuns < 100 ∨ numRuns > 100000 then
            PostDecision.rejected
              (errorEnvelope "Runs must be between 100 and 100,000" none) 400
          else if ¬ isValidCurrency outputCurrency then
            PostDecision.rejected
              (errorEnvelope ("Invalid currency: " ++ outputCurrency)
                (some ⟨some numRuns, none⟩)) 400
          else
            PostDecision.proceed y numRuns
              (parseIntegerFromNumberOrString seedV) outputCurrency

/-- A python invocation candidate (`PythonCandidate`, line 52). -/
structure PythonCandidate where
  cmd : String
  argsPrefix : List String
deriving Repr, DecidableEq

/-- The observable outcome of `runPythonWithStdin` (lines 255-296). -/
structure ProcOutcome where
  stdout : String
  stderr : String
  exitCode : Option Int
  timedOut : Bool
deriving Repr, DecidableEq

/-- The wall-clock budget `timeoutMs` (line 171), in milliseconds. -/
def timeoutMs : Nat := 30000

/-- What `runSimulation` returns: a failure envelope, or the child's parsed
JSON stdout passed through verbatim. -/
inductive SimResult where
  | envelope (e : SimEnvelope)
  | passthrough (json : Yaml)
deriving Repr

/-- Substring test over character lists (JS `String.prototype.includes`). -/
def isSubChars (pat : List Char) : List Char → Bool
  | [] => pat.isEmpty
  | c :: t => pat.isPrefixOf (c :: t) || isSubChars pat t

/-- JS `s.toLowerCase().includes(pat)` for a lowercase pattern. -/
def lowerIncludes (s : String) (pat : String) : Bool :=
  isSubChars pat.data (s.data.map Char.toLower)

/-- The broken-venv-launcher detection on stderr (lines 199-203). -/
def isBrokenLauncherStderr (stderr : String) : Bool :=
  lowerIncludes stderr "did not find executable at"
    || lowerIncludes stderr "the system cannot find the path specified"

/-- JS `s || fallback` for strings. -/
def strOrElse (s fallback : String) : String :=
  if s.isEmpty then fallback else s

/-- The timeout envelope (lines 183-195). -/
def timeoutEnvelope (runs : Int) (seed : Option Int) : SimEnvelope :=
  ⟨false, ["Simulation timeout (30s exceeded)"], [], some ⟨some runs, seed⟩⟩

/-- The non-zero-exit envelope (lines 205-216). -/
def failedEnvelope (runs : Int) (seed : Option Int) (stderr : String) : SimEnvelope :=
  ⟨false, ["Simulation failed: " ++ strOrElse stderr "Unknown error"], [],
   some ⟨some runs, seed⟩⟩

/-- The stdout-parse-failure envelope (lines 222-234). -/
def parseFailEnvelope (runs : Int) (seed : Option Int) : SimEnvelope :=
  ⟨false, ["Failed to parse simulation results"], [], some ⟨some runs, seed⟩⟩

/-- The no-candidates envelope (lines 131-144). -/
def noPythonEnvelope (runs : Int) (seed : Option Int) : SimEnvelope :=
  ⟨false, ["Neither python3 nor python was found on the server."], [],
   some ⟨some runs, seed⟩⟩

/-- The all-candidates-exhausted envelope (lines 238-252). -/
def exhaustedEnvelope (runs : Int) (seed : Option Int) (lastStderr : String) :
    SimEnvelope :=
  ⟨false,
   ["Python could not be started for simulation. If you\x27re on Windows and your .venv was created with a different Python install, recreate it or set CRML_PYTHON.",
    strOrElse lastStderr "No Python candidates succeeded."],
   [], some ⟨some runs, seed⟩⟩

/-- The candidate loop of `runSimulation` (lines 173-252): `runCandidate`
models running `runPythonWithStdin` on a candidate, `parseJson` models
`JSON.parse`, and the string accumulator is `lastStderr`. -/
def runSimulationLoop (runCandidate : PythonCandidate → ProcOutcome)
    (parseJson : String → Option Yaml) (runs : Int) (seed : Option Int) :
    List PythonCandidate → String → SimResult
  | [], lastStderr => SimResult.envelope (exhaustedEnvelope runs seed lastStderr)
  | c :: rest, _lastStderr =>
    let o := runCandidate c
    if o.timedOut then SimResult.envelope (timeoutEnvelope runs seed)
    else if o.exitCode ≠ some 0 then
      (if isBrokenLauncherStderr o.stderr then
        runSimulationLoop runCandidate parseJson runs seed rest o.stderr
      else SimResult.envelope (failedEnvelope runs seed o.stderr))
    else
      match parseJson (String.mk (trimChars o.stdout.data)) with
      | some j => SimResult.passthrough j
      | none => SimResult.envelope (parseFailEnvelope runs seed)

/-- `runSimulation` (lines 129-253). -/
def runSimulation (runCandidate : PythonCandidate → ProcOutcome)
    (parseJson : String → Option Yaml) (runs : Int) (seed : Option Int)
    (candidates : List PythonCandidate) : SimResult :=
  if candidates.isEmpty then SimResult.envelope (noPythonEnvelope runs seed)
  else runSimulationLoop runCandidate parseJson runs seed candidates ""

/-- Witness runner for claim C7: candidate `bad` fails with a broken
launcher, every other candidate times out. -/
def c7WitRunner : PythonCandidate → ProcOutcome := fun c =>
  if c.cmd = "bad" then ⟨"", "did not find executable at C:/python.exe", some 1, false⟩
  else ⟨"", "", none, true⟩

/-!
### Error-message sanitizer (`src/web/app/api/validate/route.ts`, `sanitizeErrorMessage`)

The sanitizer applies three `replaceAll` regexes (two POSIX temp-path shapes and
one Windows shape), then a failed-CRML rewrite, a case-insensitive
"Additional property" rewrite, and an "is not allowed" suffix append.  The
patterns use only literals, single-character classes and greedy `+`, so we model
the JS regex engine with a small token matcher.  JS `\s` is modelled by
`Char.isWhitespace` (the inputs at issue are ASCII).
-/

/-- Regex fragment tokens: literal strings, one-character classes, and greedy
one-or-more character classes. -/
inductive RTok where
  | lit (cs : List Char)
  | cls (p : Char → Bool)
  | plus (p : Char → Bool)

/-- `descRange n = [n, n-1, …, 1]`: candidate consumption counts for a greedy
`+`, longest first (JS backtracking order). -/
def descRange : Nat → List Nat
  | 0 => []
  | k + 1 => (k + 1) :: descRange k

/-- All lengths, in backtracking priority order (greedy first, leftmost
alternative first), at which the token sequence matches a prefix of `s`. -/
def matchLens : List RTok → List Char → List Nat
  | [], _ => [0]
  | RTok.lit l :: rest, s =>
    if l.isPrefixOf s then (matchLens rest (s.drop l.length)).map (· + l.length)
    else []
  | RTok.cls p :: rest, s =>
    match s with
    | [] => []
    | c :: t => if p c then (matchLens rest t).map (· + 1) else []
  | RTok.plus p :: rest, s =>
    (descRange (s.takeWhile p).length).flatMap
      (fun k => (matchLens rest (s.drop k)).map (· + k))

/-- The JS engine-preferred match length at the start of `s` for a pattern given
as a list of alternative token sequences (top-level alternation expanded). -/
def matchAt (pats : List (List RTok)) (s : List Char) : Option Nat :=
  pats.findSome? (fun toks => (matchLens toks s).head?)

/-- `String.prototype.replaceAll` driver: scan left to right, at each position
try the pattern; on a (non-empty) match emit `repl` and resume after the match,
otherwise emit the character.  Fuel is the string length, which suffices since
every step consumes at least one character. -/
def replaceScan (pats : List (List RTok)) (repl : List Char) : Nat → List Char → List Char
  | 0, s => s
  | _ + 1, [] => []
  | fuel + 1, c :: s =>
    match matchAt pats (c :: s) with
    | some (n + 1) => repl ++ replaceScan pats repl fuel ((c :: s).drop (n + 1))
    | _ => c :: replaceScan pats repl fuel s

/-- `text.replaceAll(regex, repl)` for the sanitizer patterns. -/
def replaceAllToks (pats : List (List RTok)) (repl s : List Char) : List Char :=
  replaceScan pats repl s.length s

/-- Case-insensitive prefix test (`/…/i` on a literal). -/
def ciPrefix (pat s : List Char) : Bool :=
  (s.take pat.length).map Char.toLower == pat.map Char.toLower

/-- `replaceAll(/literal/gi, repl)` driver. -/
def replaceCIScan (pat repl : List Char) : Nat → List Char → List Char
  | 0, s => s
  | _ + 1, [] => []
  | fuel + 1, c :: s =>
    if ciPrefix pat (c :: s) && !pat.isEmpty then
      repl ++ replaceCIScan pat repl fuel ((c :: s).drop pat.length)
    else c :: replaceCIScan pat repl fuel s

/-- `text.replaceAll(/pat/gi, repl)` for a literal pattern. -/
def replaceCI (pat repl s : List Char) : List Char :=
  replaceCIScan pat repl s.length s

/-- `[\d.]` character class. -/
def versionDigit (c : Char) : Bool := c.isDigit || c == '.'

/-- `/CRML\s+([\d.]+)/.exec(s)?.[1]`: the first occurrence of `CRML` followed by
at least one whitespace character then a non-empty run of digits/dots yields
that run. -/
def extractCrmlVersion : List Char → Option (List Char)
  | [] => none
  | c :: s =>
    if "CRML".data.isPrefixOf (c :: s) then
      let after := (c :: s).drop 4
      let ws := after.takeWhile Char.isWhitespace
      let ver := (after.drop ws.length).takeWhile versionDigit
      if ws.isEmpty || ver.isEmpty then extractCrmlVersion s
      else some ver
    else extractCrmlVersion s

/-- `[^\s]` character class. -/
def nonSpace (c : Char) : Bool := !c.isWhitespace

/-- `var` branch of `/\/(?:var|tmp)\/[^\s]+\/crml-validator\/[^\s]+\.yaml/g`. -/
def toksTmpValVar : List RTok :=
  [RTok.lit "/var/".data, RTok.plus nonSpace, RTok.lit "/crml-validator/".data,
   RTok.plus nonSpace, RTok.lit ".yaml".data]

/-- `tmp` branch of `/\/(?:var|tmp)\/[^\s]+\/crml-validator\/[^\s]+\.yaml/g`. -/
def toksTmpValTmp : List RTok :=
  [RTok.lit "/tmp/".data, RTok.plus nonSpace, RTok.lit "/crml-validator/".data,
   RTok.plus nonSpace, RTok.lit ".yaml".data]

/-- First sanitizer pattern, alternation expanded (JS tries `var` first). -/
def patsTmpValidator : List (List RTok) := [toksTmpValVar, toksTmpValTmp]

/-- `var` branch of `/\/(?:var|tmp)\/[^\s]+\.yaml/g`. -/
def toksTmpYamlVar : List RTok :=
  [RTok.lit "/var/".data, RTok.plus nonSpace, RTok.lit ".yaml".data]

/-- `tmp` branch of `/\/(?:var|tmp)\/[^\s]+\.yaml/g`. -/
def toksTmpYamlTmp : List RTok :=
  [RTok.lit "/tmp/".data, RTok.plus nonSpace, RTok.lit ".yaml".data]

/-- Second sanitizer pattern, alternation expanded. -/
def patsTmpYaml : List (List RTok) := [toksTmpYamlVar, toksTmpYamlTmp]

/-- `[A-Z]` character class. -/
def upperAZ (c : Char) : Bool := decide ('A' ≤ c) && decide (c ≤ 'Z')

/-- One branch of the Windows pattern
`/[A-Z]:\\\\(?:Users|Windows|Temp)\\\\[^\s]+\\\\crml-validator\\\\[^\s]+\.yaml/g`
(in the regex source, `\\\\` matches two literal backslashes). -/
def toksWinBranch (dir : String) : List RTok :=
  [RTok.cls upperAZ, RTok.lit (":\\\\".data ++ dir.data ++ "\\\\".data),
   RTok.plus nonSpace, RTok.lit "\\\\crml-validator\\\\".data,
   RTok.plus nonSpace, RTok.lit ".yaml".data]

/-- Third sanitizer pattern (Windows temp paths), alternation expanded. -/
def patsWin : List (List RTok) :=
  [toksWinBranch "Users", toksWinBranch "Windows", toksWinBranch "Temp"]

/-- The replacement text. -/
def yourBundle : List Char := "your bundle".data

/-- `sanitizeErrorMessage` from `src/web/app/api/validate/route.ts` lines
238-266: three path `replaceAll`s, then the failed-CRML rewrite (replacing the
whole message by a friendly template with the extracted version, default
`1.0`), the case-insensitive `Additional property` → `Unexpected field`
rewrite, and the `is not allowed` suffix append. -/
def sanitizeErrorMessage (error : String) : String :=
  let s1 := replaceAllToks patsTmpValidator yourBundle error.data
  let s2 := replaceAllToks patsTmpYaml yourBundle s1
  let s3 := replaceAllToks patsWin yourBundle s2
  let s4 :=
    if isSubChars "failed CRML".data s3 && isSubChars "validation".data s3 then
      "The bundle failed CRML ".data
        ++ ((extractCrmlVersion s3).getD "1.0".data)
        ++ " validation. This usually means there are schema errors or incompatible configurations in your selected scenarios.".data
    else s3
  let s5 :=
    if isSubChars "Additional property".data s4 || isSubChars "additional property".data s4 then
      replaceCI "Additional property".data "Unexpected field".data s4
    else s4
  let s6 :=
    if isSubChars "is not allowed".data s5 then
      s5 ++ " Check the CRML schema documentation for valid fields.".data
    else s5
  String.mk s6

/-- The temp path named by the spec. -/
def c6Path : String := "/tmp/abc123/crml-validator/crml-999.yaml"

/-- A validator message carrying both the failed-CRML phrasing and the temp
path. -/
def c6BadInput : String :=
  "failed CRML 1.0 validation: /tmp/abc123/crml-validator/crml-999.yaml"

/-- Space-freeness of a token: every character it can consume is non-space. -/
def tokSpaceFree : RTok → Prop
  | RTok.lit l => ∀ c ∈ l, nonSpace c = true
  | RTok.cls p => ∀ c, p c = true → nonSpace c = true
  | RTok.plus p => ∀ c, p c = true → nonSpace c = true

theorem Yaml.getKey_setKey_self (l : List (String × Yaml)) (k : String) (v : Yaml) :
    Yaml.getKey (Yaml.setKey l k v) k = some v := by
  induction l with
  | nil => simp [Yaml.setKey, Yaml.getKey]
  | cons hd tl ih =>
    obtain ⟨k', w⟩ := hd
    by_cases h : k' = k <;> simp [Yaml.setKey, Yaml.getKey, h, ih]

theorem Yaml.getKey_setKey_ne (l : List (String × Yaml)) (k k' : String) (v : Yaml)
    (h : k ≠ k') : Yaml.getKey (Yaml.setKey l k v) k' = Yaml.getKey l k' := by
  induction l with
  | nil => simp [Yaml.setKey, Yaml.getKey, h]
  | cons hd tl ih =>
    obtain ⟨k₀, w⟩ := hd
    by_cases h₀ : k₀ = k
    · subst h₀; simp [Yaml.setKey, Yaml.getKey, h]
    · by_cases h₁ : k₀ = k'
      · subst h₁; simp [Yaml.setKey, Yaml.getKey, h₀]
      · simp [Yaml.setKey, Yaml.getKey, h₀, h₁, ih]

/-! ### Lemmas about the toggle engine -/

theorem Yaml.getKey_delKey_self (l : List (String × Yaml)) (k : String) :
    Yaml.getKey (Yaml.delKey l k) k = none := by
  induction l with
  | nil => rfl
  | cons hd tl ih =>
    obtain ⟨k₀, w⟩ := hd
    by_cases h : k₀ = k
    · simpa [Yaml.delKey, List.filter_cons, h] using ih
    · simpa [Yaml.delKey, List.filter_cons, Yaml.getKey, h] using ih

theorem mem_uniqFirst (a : String) (l : List String) : a ∈ uniqFirst l ↔ a ∈ l := by
  induction l using uniqFirst.induct with
  | case1 => simp [uniqFirst]
  | case2 x xs ih =>
    rw [uniqFirst]
    by_cases hax : a = x
    · subst hax; simp
    · simp only [List.mem_cons, hax, false_or]
      rw [ih]
      simp [List.mem_filter, hax]

theorem nodup_uniqFirst (l : List String) : (uniqFirst l).Nodup := by
  induction l using uniqFirst.induct with
  | case1 => simp [uniqFirst]
  | case2 x xs ih =>
    rw [uniqFirst]
    refine List.nodup_cons.mpr ⟨?_, ih⟩
    rw [mem_uniqFirst]
    simp [List.mem_filter]

theorem uniqSorted_perm_uniqFirst (l : List String) :
    List.Perm (uniqSorted l) (uniqFirst l) :=
  List.perm_insertionSort _ _

theorem sorted_uniqSorted (l : List String) : (uniqSorted l).Sorted (· ≤ ·) :=
  List.sorted_insertionSort _ _

theorem nodup_uniqSorted (l : List String) : (uniqSorted l).Nodup :=
  (uniqSorted_perm_uniqFirst l).nodup_iff.mpr (nodup_uniqFirst l)

theorem mem_uniqSorted {a : String} {l : List String} : a ∈ uniqSorted l ↔ a ∈ l :=
  ((uniqSorted_perm_uniqFirst l).mem_iff).trans (mem_uniqFirst a l)

/-- Filtering commutes with `uniqSorted`: applying a toggle to the raw lists
and re-deduplicating/sorting is the same as filtering the already
deduplicated sorted lists. -/
theorem filter_uniqSorted (p : String → Bool) (l : List String) :
    uniqSorted (l.filter p) = (uniqSorted l).filter p := by
  refine List.eq_of_perm_of_sorted ?_ (sorted_uniqSorted _) ?_
  · refine (uniqSorted_perm_uniqFirst _).trans ?_
    refine List.Perm.trans ?_ (List.Perm.filter p (uniqSorted_perm_uniqFirst l)).symm
    rw [List.perm_ext_iff_of_nodup (nodup_uniqFirst _) ((nodup_uniqFirst l).filter p)]
    intro a
    simp [mem_uniqFirst, List.mem_filter]
  · exact List.Pairwise.sublist (List.filter_sublist _) (sorted_uniqSorted l)

theorem extractControlIds_eq (items : List Yaml) :
    extractControlIdsFromControlsArray (some (Yaml.arr items))
      = items.filterMap controlEntryId? := by
  induction items with
  | nil => rfl
  | cons e t ih =>
    cases e with
    | obj o =>
      cases hid : Yaml.getKey o "id" with
      | none =>
        simpa [extractControlIdsFromControlsArray, controlEntryId?,
          List.filterMap_cons, hid] using ih
      | some v =>
        cases v <;>
          simpa [extractControlIdsFromControlsArray, controlEntryId?,
            List.filterMap_cons, hid] using ih
    | str s =>
      simpa [extractControlIdsFromControlsArray, controlEntryId?,
        List.filterMap_cons] using ih
    | _ =>
      simpa [extractControlIdsFromControlsArray, controlEntryId?,
        List.filterMap_cons] using ih

theorem filterControlsArray_eq (items : List Yaml) (dC : List String) :
    filterControlsArray items dC
      = items.filter (fun e => (controlEntryId? e).all (fun i => !dC.contains i)) := by
  unfold filterControlsArray
  refine List.filter_congr ?_
  intro e _
  cases e with
  | obj o =>
    cases hid : Yaml.getKey o "id" with
    | none => simp [controlEntryId?, hid]
    | some v => cases v <;> simp [controlEntryId?, hid]
  | str s => simp [controlEntryId?]
  | _ => simp [controlEntryId?]

theorem filterMap_filter_keep {α β : Type} (f : α → Option β) (p : β → Bool)
    (l : List α) :
    (l.filter (fun a => (f a).all p)).filterMap f = (l.filterMap f).filter p := by
  induction l with
  | nil => rfl
  | cons a t ih =>
    cases hfa : f a with
    | none => simp [List.filter_cons, List.filterMap_cons, hfa, ih]
    | some b =>
      by_cases hb : p b <;>
        simp [List.filter_cons, List.filterMap_cons, hfa, hb, ih]

theorem asStringArray_map_str (l : List String) :
    Yaml.asStringArray (some (Yaml.arr (l.map Yaml.str))) = l := by
  induction l with
  | nil => rfl
  | cons s t ih => simpa [Yaml.asStringArray, List.filterMap_cons] using ih

theorem getKey_applyMeta_ne (doc : List (String × Yaml)) (dA : List String)
    (k : String) (h : k ≠ "meta") :
    Yaml.getKey (applyMetaAttckToggle doc dA) k = Yaml.getKey doc k := by
  unfold applyMetaAttckToggle
  split
  · split
    · dsimp only
      split <;> exact Yaml.getKey_setKey_ne _ _ _ _ (Ne.symm h)
    · rfl
  · rfl

theorem getKey_applyControls_ne (doc : List (String × Yaml)) (dC : List String)
    (k : String) (h : k ≠ "scenario") :
    Yaml.getKey (applyControlsToggle doc dC) k = Yaml.getKey doc k := by
  unfold applyControlsToggle
  split
  · split
    · dsimp only
      split <;> exact Yaml.getKey_setKey_ne _ _ _ _ (Ne.symm h)
    · rfl
  · rfl

theorem attacksRaw_of_no_meta (doc : List (String × Yaml))
    (hm : Yaml.asRecord? (Yaml.getKey doc "meta") = none) : attacksRaw doc = [] := by
  unfold attacksRaw
  rw [hm]
  rfl

theorem attacksRaw_of_meta (doc : List (String × Yaml)) (meta : List (String × Yaml))
    (hm : Yaml.asRecord? (Yaml.getKey doc "meta") = some meta) :
    attacksRaw doc = Yaml.asStringArray (Yaml.getKey meta "attck") := by
  unfold attacksRaw
  rw [hm]
  rfl

theorem attacksRaw_set_meta (doc : List (String × Yaml)) (m : List (String × Yaml)) :
    attacksRaw (Yaml.setKey doc "meta" (Yaml.obj m))
      = Yaml.asStringArray (Yaml.getKey m "attck") := by
  unfold attacksRaw
  rw [Yaml.getKey_setKey_self]
  rfl

theorem controlsRaw_of_no_scenario (doc : List (String × Yaml))
    (hm : Yaml.asRecord? (Yaml.getKey doc "scenario") = none) : controlsRaw doc = [] := by
  unfold controlsRaw
  rw [hm]
  rfl

theorem controlsRaw_of_scenario (doc : List (String × Yaml))
    (sc : List (String × Yaml))
    (hm : Yaml.asRecord? (Yaml.getKey doc "scenario") = some sc) :
    controlsRaw doc = extractControlIdsFromControlsArray (Yaml.getKey sc "controls") := by
  unfold controlsRaw
  rw [hm]
  rfl

theorem controlsRaw_set_scenario (doc : List (String × Yaml))
    (sc : List (String × Yaml)) :
    controlsRaw (Yaml.setKey doc "scenario" (Yaml.obj sc))
      = extractControlIdsFromControlsArray (Yaml.getKey sc "controls") := by
  unfold controlsRaw
  rw [Yaml.getKey_setKey_self]
  rfl

/-- Filtering the controls array then extracting ids is extracting ids then
filtering out the disabled ones. -/
theorem extract_filterControls (items : List Yaml) (dC : List String) :
    extractControlIdsFromControlsArray (some (Yaml.arr (filterControlsArray items dC)))
      = (extractControlIdsFromControlsArray (some (Yaml.arr items))).filter
          (fun i => !dC.contains i) := by
  rw [extractControlIds_eq, extractControlIds_eq, filterControlsArray_eq,
    filterMap_filter_keep]

/-- Effect of the `meta.attck` toggle block on the raw attack ids. -/
theorem attacksRaw_applyMeta (doc : List (String × Yaml)) (dA : List String) :
    attacksRaw (applyMetaAttckToggle doc dA)
      = (attacksRaw doc).filter (fun id => !dA.contains id) := by
  cases hm : Yaml.asRecord? (Yaml.getKey doc "meta") with
  | none =>
    have happ : applyMetaAttckToggle doc dA = doc := by
      simp only [applyMetaAttckToggle, hm]
    rw [happ, attacksRaw_of_no_meta doc hm]
    rfl
  | some meta =>
    cases ha : Yaml.getKey meta "attck" with
    | none =>
      have happ : applyMetaAttckToggle doc dA = doc := by
        simp only [applyMetaAttckToggle, hm, ha]
      rw [happ, attacksRaw_of_meta doc meta hm, ha]
      rfl
    | some v =>
      cases v with
      | arr items =>
        by_cases he : ((Yaml.asStringArray (some (Yaml.arr items))).filter
            (fun id => !dA.contains id)).isEmpty
        · have happ : applyMetaAttckToggle doc dA
              = Yaml.setKey doc "meta" (Yaml.obj (Yaml.delKey meta "attck")) := by
            simp only [applyMetaAttckToggle, hm, ha]
            rw [if_pos he]
          rw [happ, attacksRaw_set_meta, Yaml.getKey_delKey_self,
            attacksRaw_of_meta doc meta hm, ha]
          exact (List.isEmpty_iff.mp he).symm
        · have happ : applyMetaAttckToggle doc dA
              = Yaml.setKey doc "meta" (Yaml.obj (Yaml.setKey meta "attck"
                  (Yaml.arr (((Yaml.asStringArray (some (Yaml.arr items))).filter
                    (fun id => !dA.contains id)).map Yaml.str)))) := by
            simp only [applyMetaAttckToggle, hm, ha]
            rw [if_neg he]
          rw [happ, attacksRaw_set_meta, Yaml.getKey_setKey_self,
            asStringArray_map_str, attacksRaw_of_meta doc meta hm, ha]
      | nul =>
        have happ : applyMetaAttckToggle doc dA = doc := by
          simp only [applyMetaAttckToggle, hm, ha]
        rw [happ, attacksRaw_of_meta doc meta hm, ha]
        rfl
      | bool b =>
        have happ : applyMetaAttckToggle doc dA = doc := by
          simp only [applyMetaAttckToggle, hm, ha]
        rw [happ, attacksRaw_of_meta doc meta hm, ha]
        rfl
      | num n =>
        have happ : applyMetaAttckToggle doc dA = doc := by
          simp only [applyMetaAttckToggle, hm, ha]
        rw [happ, attacksRaw_of_meta doc meta hm, ha]
        rfl
      | str s =>
        have happ : applyMetaAttckToggle doc dA = doc := by
          simp only [applyMetaAttckToggle, hm, ha]
        rw [happ, attacksRaw_of_meta doc meta hm, ha]
        rfl
      | obj o =>
        have happ : applyMetaAttckToggle doc dA = doc := by
          simp only [applyMetaAttckToggle, hm, ha]
        rw [happ, attacksRaw_of_meta doc meta hm, ha]
        rfl

/-- Effect of the `scenario.controls` toggle block on the raw control ids. -/
theorem controlsRaw_applyControls (doc : List (String × Yaml)) (dC : List String) :
    controlsRaw (applyControlsToggle doc dC)
      = (controlsRaw doc).filter (fun i => !dC.contains i) := by
  cases hm : Yaml.asRecord? (Yaml.getKey doc "scenario") with
  | none =>
    have happ : applyControlsToggle doc dC = doc := by
      simp only [applyControlsToggle, hm]
    rw [happ, controlsRaw_of_no_scenario doc hm]
    rfl
  | some scenario =>
    cases hc : Yaml.getKey scenario "controls" with
    | none =>
      have happ : applyControlsToggle doc dC = doc := by
        simp only [applyControlsToggle, hm, hc]
      rw [happ, controlsRaw_of_scenario doc scenario hm, hc]
      rfl
    | some v =>
      cases v with
      | arr items =>
        by_cases he : (filterControlsArray items dC).isEmpty
        · have happ : applyControlsToggle doc dC
              = Yaml.setKey doc "scenario" (Yaml.obj (Yaml.delKey scenario "controls")) := by
            simp only [applyControlsToggle, hm, hc]
            rw [if_pos he]
          rw [happ, controlsRaw_set_scenario, Yaml.getKey_delKey_self,
            controlsRaw_of_scenario doc scenario hm, hc, ← extract_filterControls,
            List.isEmpty_iff.mp he]
          rfl
        · have happ : applyControlsToggle doc dC
              = Yaml.setKey doc "scenario" (Yaml.obj (Yaml.setKey scenario "controls"
                  (Yaml.arr (filterControlsArray items dC)))) := by
            simp only [applyControlsToggle, hm, hc]
            rw [if_neg he]
          rw [happ, controlsRaw_set_scenario, Yaml.getKey_setKey_self,
            controlsRaw_of_scenario doc scenario hm, hc, ← extract_filterControls]
      | nul =>
        have happ : applyControlsToggle doc dC = doc := by
          simp only [applyControlsToggle, hm, hc]
        rw [happ, controlsRaw_of_scenario doc scenario hm, hc]
        rfl
      | bool b =>
        have happ : applyControlsToggle doc dC = doc := by
          simp only [applyControlsToggle, hm, hc]
        rw [happ, controlsRaw_of_scenario doc scenario hm, hc]
        rfl
      | num n =>
        have happ : applyControlsToggle doc dC = doc := by
          simp only [applyControlsToggle, hm, hc]
        rw [happ, controlsRaw_of_scenario doc scenario hm, hc]
        rfl
      | str s =>
        have happ : applyControlsToggle doc dC = doc := by
          simp only [applyControlsToggle, hm, hc]
        rw [happ, controlsRaw_of_scenario doc scenario hm, hc]
        rfl
      | obj o =>
        have happ : applyControlsToggle doc dC = doc := by
          simp only [applyControlsToggle, hm, hc]
        rw [happ, controlsRaw_of_scenario doc scenario hm, hc]
        rfl

theorem attacksRaw_applyControls (doc : List (String × Yaml)) (dC : List String) :
    attacksRaw (applyControlsToggle doc dC) = attacksRaw doc := by
  unfold attacksRaw
  rw [getKey_applyControls_ne doc dC "meta" (by decide)]

theorem controlsRaw_applyMeta (doc : List (String × Yaml)) (dA : List String) :
    controlsRaw (applyMetaAttckToggle doc dA) = controlsRaw doc := by
  unfold controlsRaw
  rw [getKey_applyMeta_ne doc dA "scenario" (by decide)]

/-- Toggling a scenario document filters its extracted (sorted, deduplicated)
id lists by the disabled sets. -/
theorem extractScenarioInclusions_apply (doc : List (String × Yaml))
    (dC dA : List String) :
    extractScenarioInclusions (applyScenarioTogglesToScenarioDoc doc dC dA)
      = ((extractScenarioInclusions doc).1.filter (fun i => !dC.contains i),
         (extractScenarioInclusions doc).2.filter (fun i => !dA.contains i)) := by
  unfold extractScenarioInclusions applyScenarioTogglesToScenarioDoc
  rw [controlsRaw_applyControls, controlsRaw_applyMeta, attacksRaw_applyControls,
    attacksRaw_applyMeta, filter_uniqSorted, filter_uniqSorted]

theorem getKey_applyScenarioToggles_ne (doc : List (String × Yaml))
    (dC dA : List String) (k : String) (h1 : k ≠ "meta") (h2 : k ≠ "scenario") :
    Yaml.getKey (applyScenarioTogglesToScenarioDoc doc dC dA) k = Yaml.getKey doc k := by
  unfold applyScenarioTogglesToScenarioDoc
  rw [getKey_applyControls_ne _ _ _ h2, getKey_applyMeta_ne _ _ _ h1]

theorem uniqSorted_nil : uniqSorted [] = [] := by
  simp [uniqSorted, uniqFirst]

theorem tryExtract_eq_detect (parse : String → Option Yaml) (text : String)
    (doc : List (String × Yaml)) (hp : parse text = some (Yaml.obj doc)) :
    tryExtractInclusionsFromYaml parse text = detectDocInclusions doc := by
  unfold tryExtractInclusionsFromYaml
  rw [hp]

/-- In the scenario branch, the detection's id lists (null collapsing to
empty lists) are exactly the extracted lists. -/
theorem inclusionIdLists_detect_scenario (doc : List (String × Yaml))
    (hks : Yaml.isStrOpt (Yaml.getKey doc "crml_scenario") = true) :
    inclusionIdLists (detectDocInclusions doc) = extractScenarioInclusions doc := by
  unfold detectDocInclusions
  rw [if_pos hks]
  by_cases h : (extractScenarioInclusions doc).1.isEmpty
      && (extractScenarioInclusions doc).2.isEmpty
  · obtain ⟨h1, h2⟩ := Bool.and_eq_true_iff.mp h
    rw [if_pos h]
    unfold inclusionIdLists
    rw [Prod.ext_iff]
    exact ⟨(List.isEmpty_iff.mp h1).symm, (List.isEmpty_iff.mp h2).symm⟩
  · rw [if_neg h]
    rfl

/-- In the bundle branch, the detection's id lists are exactly the sorted
deduplicated unions over the embedded scenario entries. -/
theorem inclusionIdLists_detect_bundle (doc : List (String × Yaml))
    (hks : Yaml.isStrOpt (Yaml.getKey doc "crml_scenario") = false)
    (hkb : Yaml.isStrOpt (Yaml.getKey doc "crml_portfolio_bundle") = true) :
    inclusionIdLists (detectDocInclusions doc)
      = (uniqSorted ((bundleScenarioEntries doc).flatMap
            (fun e => (bundleEntryInclusions e).1)),
         uniqSorted ((bundleScenarioEntries doc).flatMap
            (fun e => (bundleEntryInclusions e).2))) := by
  unfold detectDocInclusions
  rw [if_neg (by rw [hks]; exact Bool.false_ne_true), if_pos hkb]
  by_cases h : (uniqSorted ((bundleScenarioEntries doc).flatMap
        (fun e => (bundleEntryInclusions e).1))).isEmpty
      && (uniqSorted ((bundleScenarioEntries doc).flatMap
        (fun e => (bundleEntryInclusions e).2))).isEmpty
  · obtain ⟨h1, h2⟩ := Bool.and_eq_true_iff.mp h
    rw [if_pos h]
    unfold inclusionIdLists
    rw [Prod.ext_iff]
    exact ⟨(List.isEmpty_iff.mp h1).symm, (List.isEmpty_iff.mp h2).symm⟩
  · rw [if_neg h]
    rfl

theorem bundleEntryInclusions_obj_scenario (eo sd : List (String × Yaml))
    (hs : Yaml.getKey eo "scenario" = some (Yaml.obj sd)) :
    bundleEntryInclusions (Yaml.obj eo) = extractScenarioInclusions sd := by
  simp only [bundleEntryInclusions, hs, Yaml.asRecord?]

theorem bundleEntryInclusions_set (eo sd : List (String × Yaml)) :
    bundleEntryInclusions (Yaml.obj (Yaml.setKey eo "scenario" (Yaml.obj sd)))
      = extractScenarioInclusions sd := by
  simp only [bundleEntryInclusions, Yaml.getKey_setKey_self, Yaml.asRecord?]

theorem bundleEntryInclusions_obj_noscenario (eo : List (String × Yaml))
    (h : Yaml.asRecord? (Yaml.getKey eo "scenario") = none) :
    bundleEntryInclusions (Yaml.obj eo) = ([], []) := by
  simp only [bundleEntryInclusions, h]

/-- Per-entry effect of the bundle toggle loop. -/
theorem bundleEntryInclusions_apply (dC dA : List String) (entry : Yaml) :
    bundleEntryInclusions (applyBundleScenarioEntry dC dA entry)
      = ((bundleEntryInclusions entry).1.filter (fun i => !dC.contains i),
         (bundleEntryInclusions entry).2.filter (fun i => !dA.contains i)) := by
  cases entry with
  | obj eo =>
    cases hs : Yaml.getKey eo "scenario" with
    | none =>
      have happ : applyBundleScenarioEntry dC dA (Yaml.obj eo) = Yaml.obj eo := by
        simp only [applyBundleScenarioEntry, hs]
      have hnone : Yaml.asRecord? (Yaml.getKey eo "scenario") = none := by
        rw [hs]; rfl
      rw [happ, bundleEntryInclusions_obj_noscenario eo hnone]
      rfl
    | some v =>
      cases v with
      | obj sd =>
        have happ : applyBundleScenarioEntry dC dA (Yaml.obj eo)
            = Yaml.obj (Yaml.setKey eo "scenario"
                (Yaml.obj (applyScenarioTogglesToScenarioDoc sd dC dA))) := by
          simp only [applyBundleScenarioEntry, hs]
        rw [happ, bundleEntryInclusions_set,
          bundleEntryInclusions_obj_scenario eo sd hs,
          extractScenarioInclusions_apply]
      | nul =>
        have happ : applyBundleScenarioEntry dC dA (Yaml.obj eo) = Yaml.obj eo := by
          simp only [applyBundleScenarioEntry, hs]
        have hnone : Yaml.asRecord? (Yaml.getKey eo "scenario") = none := by
          rw [hs]; rfl
        rw [happ, bundleEntryInclusions_obj_noscenario eo hnone]
        rfl
      | bool b =>
        have happ : applyBundleScenarioEntry dC dA (Yaml.obj eo) = Yaml.obj eo := by
          simp only [applyBundleScenarioEntry, hs]
        have hnone : Yaml.asRecord? (Yaml.getKey eo "scenario") = none := by
          rw [hs]; rfl
        rw [happ, bundleEntryInclusions_obj_noscenario eo hnone]
        rfl
      | num n =>
        have happ : applyBundleScenarioEntry dC dA (Yaml.obj eo) = Yaml.obj eo := by
          simp only [applyBundleScenarioEntry, hs]
        have hnone : Yaml.asRecord? (Yaml.getKey eo "scenario") = none := by
          rw [hs]; rfl
        rw [happ, bundleEntryInclusions_obj_noscenario eo hnone]
        rfl
      | str s =>
        have happ : applyBundleScenarioEntry dC dA (Yaml.obj eo) = Yaml.obj eo := by
          simp only [applyBundleScenarioEntry, hs]
        have hnone : Yaml.asRecord? (Yaml.getKey eo "scenario") = none := by
          rw [hs]; rfl
        rw [happ, bundleEntryInclusions_obj_noscenario eo hnone]
        rfl
      | arr l =>
        have happ : applyBundleScenarioEntry dC dA (Yaml.obj eo) = Yaml.obj eo := by
          simp only [applyBundleScenarioEntry, hs]
        have hnone : Yaml.asRecord? (Yaml.getKey eo "scenario") = none := by
          rw [hs]; rfl
        rw [happ, bundleEntryInclusions_obj_noscenario eo hnone]
        rfl
  | nul => rfl
  | bool b => rfl
  | num n => rfl
  | str s => rfl
  | arr l => rfl

theorem flatMap_filter_comm {α β : Type} (f : α → List β) (p : β → Bool)
    (l : List α) :
    l.flatMap (fun a => (f a).filter p) = (l.flatMap f).filter p := by
  induction l with
  | nil => rfl
  | cons a t ih => simp [List.flatMap_cons, List.filter_append, ih]

/-- Claim C2: applying the inclusion toggle with both disabled sets empty
returns the input text byte-identically, for every parser and serializer,
whether or not the text parses and whatever its kind
(`applyInclusionTogglesToYaml`, line 140). -/
theorem c2_apply_empty_sets_identity (parse : String → Option Yaml)
    (dump : Yaml → String) (yamlContent : String) :
    applyInclusionTogglesToYaml parse dump yamlContent [] [] = yamlContent := rfl

/-- Claim C1: for a document of kind scenario or portfolio_bundle, the id
lists detected after applying the toggles are the id lists detected before,
with the ids in the disabled sets removed (filtering the sorted
deduplicated lists is their sorted set difference).  A `null` detection
carries empty id lists.  `parse`/`dump` model `yaml.load`/`yaml.dump`; the
round-trip hypothesis `hrt` states that re-parsing the dumped toggled
document gives back that document. -/
theorem c1_detect_apply_removes_disabled
    (parse : String → Option Yaml) (dump : Yaml → String) (text : String)
    (dC dA : List String) (doc : List (String × Yaml))
    (hp : parse text = some (Yaml.obj doc))
    (hkind : Yaml.isStrOpt (Yaml.getKey doc "crml_scenario") = true ∨
      Yaml.isStrOpt (Yaml.getKey doc "crml_portfolio_bundle") = true)
    (hrt : ∀ doc', applyDocToggles doc dC dA = some doc' →
      parse (dump (Yaml.obj doc')) = some (Yaml.obj doc')) :
    inclusionIdLists (tryExtractInclusionsFromYaml parse
        (applyInclusionTogglesToYaml parse dump text dC dA))
      = ((inclusionIdLists (tryExtractInclusionsFromYaml parse text)).1.filter
            (fun i => !dC.contains i),
         (inclusionIdLists (tryExtractInclusionsFromYaml parse text)).2.filter
            (fun i => !dA.contains i)) := by
  by_cases hEmpty : (dC.isEmpty && dA.isEmpty) = true
  · have happly : applyInclusionTogglesToYaml parse dump text dC dA = text := by
      unfold applyInclusionTogglesToYaml
      rw [if_pos hEmpty]
    obtain ⟨h1, h2⟩ := Bool.and_eq_true_iff.mp hEmpty
    rw [happly, List.isEmpty_iff.mp h1, List.isEmpty_iff.mp h2]
    simp
  · have happly : applyInclusionTogglesToYaml parse dump text dC dA
        = (match applyDocToggles doc dC dA with
           | some doc' => dump (Yaml.obj doc')
           | none => text) := by
      unfold applyInclusionTogglesToYaml
      rw [if_neg hEmpty, hp]
    by_cases hks : Yaml.isStrOpt (Yaml.getKey doc "crml_scenario") = true
    · have had : applyDocToggles doc dC dA
          = some (applyScenarioTogglesToScenarioDoc doc dC dA) := by
        unfold applyDocToggles
        rw [if_pos hks]
      have hp' := hrt _ had
      have hks' : Yaml.isStrOpt (Yaml.getKey
          (applyScenarioTogglesToScenarioDoc doc dC dA) "crml_scenario") = true := by
        rw [getKey_applyScenarioToggles_ne _ _ _ _ (by decide) (by decide)]
        exact hks
      rw [happly, had]
      rw [tryExtract_eq_detect parse _ _ hp',
        tryExtract_eq_detect parse text doc hp,
        inclusionIdLists_detect_scenario _ hks',
        inclusionIdLists_detect_scenario doc hks,
        extractScenarioInclusions_apply]
    · have hkb : Yaml.isStrOpt (Yaml.getKey doc "crml_portfolio_bundle") = true :=
        hkind.resolve_left hks
      have hksf : Yaml.isStrOpt (Yaml.getKey doc "crml_scenario") = false :=
        Bool.eq_false_iff.mpr hks
      cases hb : Yaml.asRecord? (Yaml.getKey doc "portfolio_bundle") with
      | none =>
        have had : applyDocToggles doc dC dA = none := by
          simp [applyDocToggles, hksf, hkb, hb]
        have hent : bundleScenarioEntries doc = [] := by
          simp [bundleScenarioEntries, hb]
        rw [happly, had, tryExtract_eq_detect parse text doc hp,
          inclusionIdLists_detect_bundle doc hksf hkb, hent]
        simp [uniqSorted_nil]
      | some bundle =>
        cases hsc : Yaml.getKey bundle "scenarios" with
        | none =>
          have had : applyDocToggles doc dC dA = none := by
            simp [applyDocToggles, hksf, hkb, hb, hsc]
          have hent : bundleScenarioEntries doc = [] := by
            simp [bundleScenarioEntries, hb, hsc]
          rw [happly, had, tryExtract_eq_detect parse text doc hp,
            inclusionIdLists_detect_bundle doc hksf hkb, hent]
          simp [uniqSorted_nil]
        | some v =>
          cases v with
          | arr scens =>
            have had : applyDocToggles doc dC dA
                = some (Yaml.setKey doc "portfolio_bundle"
                    (Yaml.obj (Yaml.setKey bundle "scenarios"
                      (Yaml.arr (scens.map (applyBundleScenarioEntry dC dA)))))) := by
              simp [applyDocToggles, hksf, hkb, hb, hsc]
            have hp' := hrt _ had
            have hks' : Yaml.isStrOpt (Yaml.getKey
                (Yaml.setKey doc "portfolio_bundle"
                  (Yaml.obj (Yaml.setKey bundle "scenarios"
                    (Yaml.arr (scens.map (applyBundleScenarioEntry dC dA))))))
                "crml_scenario") = false := by
              rw [Yaml.getKey_setKey_ne _ _ _ _ (by decide)]
              exact hksf
            have hkb' : Yaml.isStrOpt (Yaml.getKey
                (Yaml.setKey doc "portfolio_bundle"
                  (Yaml.obj (Yaml.setKey bundle "scenarios"
                    (Yaml.arr (scens.map (applyBundleScenarioEntry dC dA))))))
                "crml_portfolio_bundle") = true := by
              rw [Yaml.getKey_setKey_ne _ _ _ _ (by decide)]
              exact hkb
            have hent' : bundleScenarioEntries
                (Yaml.setKey doc "portfolio_bundle"
                  (Yaml.obj (Yaml.setKey bundle "scenarios"
                    (Yaml.arr (scens.map (applyBundleScenarioEntry dC dA))))))
                = scens.map (applyBundleScenarioEntry dC dA) := by
              unfold bundleScenarioEntries
              rw [Yaml.getKey_setKey_self]
              simp only [Yaml.asRecord?]
              rw [Yaml.getKey_setKey_self]
            have hent : bundleScenarioEntries doc = scens := by
              simp [bundleScenarioEntries, hb, hsc]
            rw [happly, had, tryExtract_eq_detect parse _ _ hp',
              tryExtract_eq_detect parse text doc hp,
              inclusionIdLists_detect_bundle _ hks' hkb',
              inclusionIdLists_detect_bundle doc hksf hkb,
              hent', hent, List.flatMap_map, List.flatMap_map]
            simp only [bundleEntryInclusions_apply]
            rw [flatMap_filter_comm, flatMap_filter_comm, filter_uniqSorted,
              filter_uniqSorted]
          | nul =>
            have had : applyDocToggles doc dC dA = none := by
              simp [applyDocToggles, hksf, hkb, hb, hsc]
            have hent : bundleScenarioEntries doc = [] := by
              simp [bundleScenarioEntries, hb, hsc]
            rw [happly, had, tryExtract_eq_detect parse text doc hp,
              inclusionIdLists_detect_bundle doc hksf hkb, hent]
            simp [uniqSorted_nil]
          | bool b =>
            have had : applyDocToggles doc dC dA = none := by
              simp [applyDocToggles, hksf, hkb, hb, hsc]
            have hent : bundleScenarioEntries doc = [] := by
              simp [bundleScenarioEntries, hb, hsc]
            rw [happly, had, tryExtract_eq_detect parse text doc hp,
              inclusionIdLists_detect_bundle doc hksf hkb, hent]
            simp [uniqSorted_nil]
          | num n =>
            have had : applyDocToggles doc dC dA = none := by
              simp [applyDocToggles, hksf, hkb, hb, hsc]
            have hent : bundleScenarioEntries doc = [] := by
              simp [bundleScenarioEntries, hb, hsc]
            rw [happly, had, tryExtract_eq_detect parse text doc hp,
              inclusionIdLists_detect_bundle doc hksf hkb, hent]
            simp [uniqSorted_nil]
          | str s =>
            have had : applyDocToggles doc dC dA = none := by
              simp [applyDocToggles, hksf, hkb, hb, hsc]
            have hent : bundleScenarioEntries doc = [] := by
              simp [bundleScenarioEntries, hb, hsc]
            rw [happly, had, tryExtract_eq_detect parse text doc hp,
              inclusionIdLists_detect_bundle doc hksf hkb, hent]
            simp [uniqSorted_nil]
          | obj o =>
            have had : applyDocToggles doc dC dA = none := by
              simp [applyDocToggles, hksf, hkb, hb, hsc]
            have hent : bundleScenarioEntries doc = [] := by
              simp [bundleScenarioEntries, hb, hsc]
            rw [happly, had, tryExtract_eq_detect parse text doc hp,
              inclusionIdLists_detect_bundle doc hksf hkb, hent]
            simp [uniqSorted_nil]

/-- Witness for claim C1 at a concrete scenario document with control `c1`
disabled. -/
theorem c1_witness :
    inclusionIdLists (tryExtractInclusionsFromYaml c1WitParse
        (applyInclusionTogglesToYaml c1WitParse c1WitDump "T" ["c1"] []))
      = ((inclusionIdLists (tryExtractInclusionsFromYaml c1WitParse "T")).1.filter
            (fun i => !(["c1"] : List String).contains i),
         (inclusionIdLists (tryExtractInclusionsFromYaml c1WitParse "T")).2.filter
            (fun i => !([] : List String).contains i)) :=
  c1_detect_apply_removes_disabled c1WitParse c1WitDump "T" ["c1"] [] c1WitDoc
    rfl (Or.inl rfl)
    (fun doc' h => by
      have hd : applyDocToggles c1WitDoc ["c1"] [] = some c1WitDoc' := rfl
      rw [hd] at h
      cases h
      rfl)

/-- Claim C10: applying inclusion toggles never removes a
`scenario.controls[]` entry that is neither a string nor an object with a
string `id` field; such an entry is always retained in the filtered array,
regardless of the disabled-controls set
(`filterControlsArray` line 106, `applyScenarioTogglesToScenarioDoc`). -/
theorem c10_junk_control_entries_retained (doc sc : List (String × Yaml))
    (items : List Yaml) (dC dA : List String) (e : Yaml)
    (hsc : Yaml.getKey doc "scenario" = some (Yaml.obj sc))
    (hcon : Yaml.getKey sc "controls" = some (Yaml.arr items))
    (he : e ∈ items)
    (hnotstr : ∀ s, e ≠ Yaml.str s)
    (hnotid : ∀ o s, e = Yaml.obj o → Yaml.getKey o "id" ≠ some (Yaml.str s)) :
    ∃ sc' items',
      Yaml.getKey (applyScenarioTogglesToScenarioDoc doc dC dA) "scenario"
          = some (Yaml.obj sc')
        ∧ Yaml.getKey sc' "controls" = some (Yaml.arr items')
        ∧ e ∈ items' := by
  have hkeep : e ∈ filterControlsArray items dC := by
    rw [filterControlsArray_eq, List.mem_filter]
    refine ⟨he, ?_⟩
    cases e with
    | str s => exact absurd rfl (hnotstr s)
    | obj o =>
      simp only [controlEntryId?]
      cases hid : Yaml.getKey o "id" with
      | none => rfl
      | some v =>
        cases v with
        | str s => exact absurd hid (hnotid o s rfl)
        | nul => rfl
        | bool b => rfl
        | num n => rfl
        | arr l => rfl
        | obj o' => rfl
    | nul => rfl
    | bool b => rfl
    | num n => rfl
    | arr l => rfl
  have hne : (filterControlsArray items dC).isEmpty ≠ true := by
    intro hfalse
    rw [List.isEmpty_iff.mp hfalse] at hkeep
    exact absurd hkeep (List.not_mem_nil e)
  have hrec : Yaml.asRecord? (Yaml.getKey (applyMetaAttckToggle doc dA) "scenario")
      = some sc := by
    rw [getKey_applyMeta_ne _ _ _ (by decide), hsc]
    rfl
  refine ⟨Yaml.setKey sc "controls" (Yaml.arr (filterControlsArray items dC)),
    filterControlsArray items dC, ?_, Yaml.getKey_setKey_self _ _ _, hkeep⟩
  unfold applyScenarioTogglesToScenarioDoc
  have happ : applyControlsToggle (applyMetaAttckToggle doc dA) dC
      = Yaml.setKey (applyMetaAttckToggle doc dA) "scenario"
          (Yaml.obj (Yaml.setKey sc "controls"
            (Yaml.arr (filterControlsArray items dC)))) := by
    simp [applyControlsToggle, hrec, hcon, hne]
  rw [happ, Yaml.getKey_setKey_self]

/-- Witness for claim C10 at a concrete document containing the non-string,
non-id entry `7` in `scenario.controls`. -/
theorem c10_witness :
    ∃ sc' items',
      Yaml.getKey (applyScenarioTogglesToScenarioDoc c10WitDoc ["c1"] []) "scenario"
          = some (Yaml.obj sc')
        ∧ Yaml.getKey sc' "controls" = some (Yaml.arr items')
        ∧ Yaml.num 7 ∈ items' :=
  c10_junk_control_entries_retained c10WitDoc
    [("controls", Yaml.arr [Yaml.str "c1", Yaml.num 7])]
    [Yaml.str "c1", Yaml.num 7] ["c1"] [] (Yaml.num 7)
    rfl rfl (by simp)
    (by intro s h; simp at h)
    (by intro o s h; simp at h)

theorem getKey_ite_setKey_ne (c : Prop) [Decidable c] (b : List (String × Yaml))
    (f field : String) (v : Yaml) (h : f ≠ field) :
    Yaml.getKey (if c then b else Yaml.setKey b f v) field = Yaml.getKey b field := by
  by_cases hc : c
  · simp [hc]
  · simp [hc, Yaml.getKey_setKey_ne _ _ _ _ h]

theorem getKey_includePacksStep_ne (pd : List ParsedDoc) (body : List (String × Yaml))
    (kind : DocKind) (f field : String) (h : f ≠ field) :
    Yaml.getKey (includePacksStep pd body kind f) field = Yaml.getKey body field := by
  unfold includePacksStep
  exact getKey_ite_setKey_ne _ _ _ _ _ h

theorem getKey_includePacksStep_self (pd : List ParsedDoc)
    (body : List (String × Yaml)) (kind : DocKind) (f : String)
    (h : Yaml.getKey body f = none) :
    Yaml.getKey (includePacksStep pd body kind f) f
      = (if (packDocsForKind pd kind).isEmpty then none
         else some (Yaml.arr (packDocsForKind pd kind))) := by
  unfold includePacksStep
  by_cases hd : (packDocsForKind pd kind).isEmpty
  · simp [hd, h]
  · simp [hd, Yaml.getKey_setKey_self]

/-- The rewritten portfolio body's `scenarios` list is exactly the selected
scenario references. -/
theorem getKey_rewritePortfolioBody_scenarios (body : List (String × Yaml))
    (scenarioDocs packDocs : List ParsedDoc) :
    Yaml.getKey (rewritePortfolioBody body scenarioDocs packDocs) "scenarios"
      = some (Yaml.arr (scenarioRefEntries scenarioDocs)) := by
  simp [rewritePortfolioBody, getKey_ite_setKey_ne, Yaml.getKey_setKey_self]

theorem getKey_buildBundleObject_pb (portfolioDoc : List (String × Yaml))
    (scenarioDocs packDocs : List ParsedDoc) :
    Yaml.getKey (buildBundleObject portfolioDoc scenarioDocs packDocs)
        "portfolio_bundle"
      = some (Yaml.obj (buildBundleBody portfolioDoc scenarioDocs packDocs)) := by
  simp [buildBundleObject, Yaml.getKey]

theorem getKey_buildBundleBody_scenarios (portfolioDoc : List (String × Yaml))
    (scenarioDocs packDocs : List ParsedDoc) :
    Yaml.getKey (buildBundleBody portfolioDoc scenarioDocs packDocs) "scenarios"
      = some (Yaml.arr (inlinedScenarioEntries scenarioDocs)) := by
  simp [buildBundleBody, getKey_includePacksStep_ne, Yaml.getKey]

theorem filterMap_eq_map_of_some {α β : Type} (f : α → Option β) (g : α → β)
    (l : List α) (h : ∀ a, f a = some (g a)) : l.filterMap f = l.map g := by
  induction l with
  | nil => rfl
  | cons a t ih => simp [List.filterMap_cons, h, ih]

theorem bundleInlinedScenarioIds_build (portfolioDoc : List (String × Yaml))
    (scenarioDocs packDocs : List ParsedDoc) :
    bundleInlinedScenarioIds (buildBundleObject portfolioDoc scenarioDocs packDocs)
      = scenarioDocs.map (fun s => slugifyId s.ex.filename) := by
  unfold bundleInlinedScenarioIds
  rw [getKey_buildBundleObject_pb]
  show (match Yaml.getKey (buildBundleBody portfolioDoc scenarioDocs packDocs)
      "scenarios" with
    | some (Yaml.arr entries) => entries.filterMap scenarioIdOfEntry
    | _ => []) = _
  rw [getKey_buildBundleBody_scenarios]
  show (inlinedScenarioEntries scenarioDocs).filterMap scenarioIdOfEntry = _
  unfold inlinedScenarioEntries
  rw [List.filterMap_map]
  exact filterMap_eq_map_of_some _ _ _ (fun sd => rfl)

theorem portfolioScenarioRefIds_rewrite_obj (portfolioDoc : List (String × Yaml))
    (scenarioDocs packDocs : List ParsedDoc) (body : List (String × Yaml))
    (hb : Yaml.getKey portfolioDoc "portfolio" = some (Yaml.obj body)) :
    portfolioScenarioRefIds (rewritePortfolioForBundle portfolioDoc scenarioDocs packDocs)
      = scenarioDocs.map (fun s => slugifyId s.ex.filename) := by
  have hres : rewritePortfolioForBundle portfolioDoc scenarioDocs packDocs
      = Yaml.setKey portfolioDoc "portfolio"
          (Yaml.obj (rewritePortfolioBody body scenarioDocs packDocs)) := by
    simp only [rewritePortfolioForBundle, hb]
  unfold portfolioScenarioRefIds
  rw [hres, Yaml.getKey_setKey_self]
  show (match Yaml.getKey (rewritePortfolioBody body scenarioDocs packDocs)
      "scenarios" with
    | some (Yaml.arr entries) => entries.filterMap scenarioIdOfEntry
    | _ => []) = _
  rw [getKey_rewritePortfolioBody_scenarios]
  show (scenarioRefEntries scenarioDocs).filterMap scenarioIdOfEntry = _
  unfold scenarioRefEntries
  rw [List.filterMap_map]
  exact filterMap_eq_map_of_some _ _ _ (fun sd => rfl)

/-- Claim C3: compose reports a select-a-portfolio error when no portfolio
is selected and a select-at-least-one-scenario error when no scenario is
selected; both are present together when both conditions hold, and in
either case the returned yaml is the empty string
(`buildPortfolioBundleYaml`, lines 182-210). -/
theorem c3_compose_selection_errors
    (parse : String → Except String Yaml) (dump : Yaml → String)
    (compat : List Example → List String)
    (missing : List Example → List Example → List String)
    (selectedPortfolio : Option Example)
    (selectedScenarios selectedPacks : List Example) :
    (selectedPortfolio = none →
      "Please select a portfolio to compose a bundle."
          ∈ (buildPortfolioBundleYaml parse dump compat missing selectedPortfolio
              selectedScenarios selectedPacks).errors
        ∧ (buildPortfolioBundleYaml parse dump compat missing selectedPortfolio
            selectedScenarios selectedPacks).yaml = "")
    ∧ (selectedScenarios = [] →
      "Please select at least one scenario to include in the bundle."
          ∈ (buildPortfolioBundleYaml parse dump compat missing selectedPortfolio
              selectedScenarios selectedPacks).errors
        ∧ (buildPortfolioBundleYaml parse dump compat missing selectedPortfolio
            selectedScenarios selectedPacks).yaml = "") := by
  constructor
  · intro hp
    subst hp
    simp [buildPortfolioBundleYaml]
  · intro hs
    subst hs
    cases selectedPortfolio with
    | none => simp [buildPortfolioBundleYaml]
    | some p =>
      rcases hpp : (parseYamlRootRecord parse p.content "portfolio").1 with _ | d
      · simp [buildPortfolioBundleYaml, hpp]
      · simp [buildPortfolioBundleYaml, hpp]

/-- Witness for claim C3: both selection errors at once, empty yaml. -/
theorem c3_witness :
    ("Please select a portfolio to compose a bundle."
        ∈ (buildPortfolioBundleYaml failParse constDump noCompat noMissing
            none [] []).errors
      ∧ (buildPortfolioBundleYaml failParse constDump noCompat noMissing
          none [] []).yaml = "")
    ∧ ("Please select at least one scenario to include in the bundle."
        ∈ (buildPortfolioBundleYaml failParse constDump noCompat noMissing
            none [] []).errors
      ∧ (buildPortfolioBundleYaml failParse constDump noCompat noMissing
          none [] []).yaml = "") :=
  ⟨(c3_compose_selection_errors failParse constDump noCompat noMissing
      none [] []).1 rfl,
   (c3_compose_selection_errors failParse constDump noCompat noMissing
      none [] []).2 rfl⟩

/-- Claim C5: a pack-kind field is present in the composed bundle body iff
at least one pack of that kind was selected and parsed, in which case it
holds exactly the non-empty array of those pack bodies; it is never an
empty array and never present for a kind with zero packs
(`buildBundleObject`/`includePacks`, lines 168-177). -/
theorem c5_pack_fields_present_iff (portfolioDoc : List (String × Yaml))
    (scenarioDocs packDocs : List ParsedDoc) (kind : DocKind) (field : String)
    (hk : (kind, field) ∈ packFields) :
    ∃ body,
      Yaml.getKey (buildBundleObject portfolioDoc scenarioDocs packDocs)
          "portfolio_bundle" = some (Yaml.obj body)
      ∧ Yaml.getKey body field
          = (if (packDocsForKind packDocs kind).isEmpty then none
             else some (Yaml.arr (packDocsForKind packDocs kind))) := by
  refine ⟨buildBundleBody portfolioDoc scenarioDocs packDocs,
    getKey_buildBundleObject_pb portfolioDoc scenarioDocs packDocs, ?_⟩
  simp only [packFields, List.mem_cons, List.not_mem_nil, or_false,
    Prod.mk.injEq] at hk
  unfold buildBundleBody
  rcases hk with ⟨hk1, hk2⟩ | ⟨hk1, hk2⟩ | ⟨hk1, hk2⟩ | ⟨hk1, hk2⟩ | ⟨hk1, hk2⟩ <;>
    subst hk1 <;> subst hk2
  · rw [getKey_includePacksStep_ne _ _ _ _ _ (by decide),
      getKey_includePacksStep_ne _ _ _ _ _ (by decide),
      getKey_includePacksStep_ne _ _ _ _ _ (by decide),
      getKey_includePacksStep_ne _ _ _ _ _ (by decide),
      getKey_includePacksStep_self _ _ _ _ (by simp [Yaml.getKey])]
  · rw [getKey_includePacksStep_ne _ _ _ _ _ (by decide),
      getKey_includePacksStep_ne _ _ _ _ _ (by decide),
      getKey_includePacksStep_ne _ _ _ _ _ (by decide),
      getKey_includePacksStep_self _ _ _ _
        (by rw [getKey_includePacksStep_ne _ _ _ _ _ (by decide)]
            simp [Yaml.getKey])]
  · rw [getKey_includePacksStep_ne _ _ _ _ _ (by decide),
      getKey_includePacksStep_ne _ _ _ _ _ (by decide),
      getKey_includePacksStep_self _ _ _ _
        (by rw [getKey_includePacksStep_ne _ _ _ _ _ (by decide),
          getKey_includePacksStep_ne _ _ _ _ _ (by decide)]
            simp [Yaml.getKey])]
  · rw [getKey_includePacksStep_ne _ _ _ _ _ (by decide),
      getKey_includePacksStep_self _ _ _ _
        (by rw [getKey_includePacksStep_ne _ _ _ _ _ (by decide),
          getKey_includePacksStep_ne _ _ _ _ _ (by decide),
          getKey_includePacksStep_ne _ _ _ _ _ (by decide)]
            simp [Yaml.getKey])]
  · rw [getKey_includePacksStep_self _ _ _ _
      (by rw [getKey_includePacksStep_ne _ _ _ _ _ (by decide),
        getKey_includePacksStep_ne _ _ _ _ _ (by decide),
        getKey_includePacksStep_ne _ _ _ _ _ (by decide),
        getKey_includePacksStep_ne _ _ _ _ _ (by decide)]
          simp [Yaml.getKey])]

/-- Witness for claim C5 at the control-catalog field with one pack. -/
theorem c5_witness :
    ∃ body,
      Yaml.getKey (buildBundleObject [] [] [c5WitPack]) "portfolio_bundle"
          = some (Yaml.obj body)
      ∧ Yaml.getKey body "control_catalogs"
          = (if (packDocsForKind [c5WitPack] DocKind.control_catalog).isEmpty
             then none
             else some (Yaml.arr (packDocsForKind [c5WitPack]
               DocKind.control_catalog))) :=
  c5_pack_fields_present_iff [] [] [c5WitPack] DocKind.control_catalog
    "control_catalogs" (by simp [packFields])

theorem portfolioScenarioRefIds_rewrite_not_obj (portfolioDoc : List (String × Yaml))
    (scenarioDocs packDocs : List ParsedDoc)
    (hb : ∀ body, Yaml.getKey portfolioDoc "portfolio" ≠ some (Yaml.obj body)) :
    portfolioScenarioRefIds
        (rewritePortfolioForBundle portfolioDoc scenarioDocs packDocs) = [] := by
  have hres : rewritePortfolioForBundle portfolioDoc scenarioDocs packDocs
      = portfolioDoc := by
    unfold rewritePortfolioForBundle
    cases hg : Yaml.getKey portfolioDoc "portfolio" with
    | none => rfl
    | some v =>
      cases v with
      | obj body => exact absurd hg (hb body)
      | nul => rfl
      | bool b => rfl
      | num n => rfl
      | str s => rfl
      | arr l => rfl
  rw [hres]
  unfold portfolioScenarioRefIds
  cases hg : Yaml.getKey portfolioDoc "portfolio" with
  | none => rfl
  | some v =>
    cases v with
    | obj body => exact absurd hg (hb body)
    | nul => rfl
    | bool b => rfl
    | num n => rfl
    | str s => rfl
    | arr l => rfl

/-- Claim C4 (amended): every scenario reference in the composed bundle's
embedded portfolio body has a matching inlined scenario entry with the same
id; the converse direction also holds whenever the selected portfolio
document's `portfolio` body is a mapping (when it is not, the rewrite is
skipped, the body carries no reference list, and inlined entries have no
matching references). -/
theorem c4_scenario_refs_lockstep (portfolioDoc : List (String × Yaml))
    (scenarioDocs packDocs : List ParsedDoc) :
    (∀ i, i ∈ portfolioScenarioRefIds
        (rewritePortfolioForBundle portfolioDoc scenarioDocs packDocs) →
      i ∈ bundleInlinedScenarioIds (buildBundleObject
        (rewritePortfolioForBundle portfolioDoc scenarioDocs packDocs)
        scenarioDocs packDocs))
    ∧ ((∃ body, Yaml.getKey portfolioDoc "portfolio" = some (Yaml.obj body)) →
      ∀ i, i ∈ bundleInlinedScenarioIds (buildBundleObject
          (rewritePortfolioForBundle portfolioDoc scenarioDocs packDocs)
          scenarioDocs packDocs)
        ↔ i ∈ portfolioScenarioRefIds
            (rewritePortfolioForBundle portfolioDoc scenarioDocs packDocs)) := by
  constructor
  · intro i hi
    rw [bundleInlinedScenarioIds_build]
    by_cases hobj : ∃ body, Yaml.getKey portfolioDoc "portfolio"
        = some (Yaml.obj body)
    · obtain ⟨body, hbo⟩ := hobj
      rw [portfolioScenarioRefIds_rewrite_obj _ _ _ body hbo] at hi
      exact hi
    · rw [portfolioScenarioRefIds_rewrite_not_obj] at hi
      · exact absurd hi (List.not_mem_nil i)
      · intro body hbody
        exact hobj ⟨body, hbody⟩
  · rintro ⟨body, hbo⟩ i
    rw [bundleInlinedScenarioIds_build,
      portfolioScenarioRefIds_rewrite_obj _ _ _ body hbo]

/-- Counterexample to claim C4 as stated: with a portfolio document whose
`portfolio` body is the scalar `5`, composition succeeds (no errors,
non-empty yaml) and the bundle contains an inlined scenario entry `s1`
with no matching scenario reference in the embedded portfolio body, so the
"vice versa" direction fails. -/
theorem c4_counterexample :
    (buildPortfolioBundleYaml c4Parse constDump noCompat noMissing
        (some c4PortfolioEx) [c4ScenEx] []).errors = []
    ∧ (buildPortfolioBundleYaml c4Parse constDump noCompat noMissing
        (some c4PortfolioEx) [c4ScenEx] []).yaml = "YAML"
    ∧ "s1" ∈ bundleInlinedScenarioIds (buildBundleObject
        (rewritePortfolioForBundle c4BadPortfolioDoc [c4Scen] []) [c4Scen] [])
    ∧ "s1" ∉ portfolioScenarioRefIds
        (rewritePortfolioForBundle c4BadPortfolioDoc [c4Scen] []) := by
  refine ⟨rfl, rfl, ?_, ?_⟩
  · rw [bundleInlinedScenarioIds_build]
    decide
  · rw [portfolioScenarioRefIds_rewrite_not_obj]
    · exact List.not_mem_nil _
    · intro body hbody
      simp [c4BadPortfolioDoc, Yaml.getKey] at hbody

/-- Witness for the amended claim C4 at a portfolio with a mapping body. -/
theorem c4_witness :
    "s1" ∈ bundleInlinedScenarioIds (buildBundleObject
        (rewritePortfolioForBundle c4GoodPortfolioDoc [c4Scen] []) [c4Scen] [])
      ↔ "s1" ∈ portfolioScenarioRefIds
          (rewritePortfolioForBundle c4GoodPortfolioDoc [c4Scen] []) :=
  (c4_scenario_refs_lockstep c4GoodPortfolioDoc [c4Scen] []).2 ⟨[], rfl⟩ "s1"

/-- Claim C7: whenever the loop reaches a candidate whose child process
exceeds the 30-second budget (`timedOut`), possibly after earlier
candidates that failed with a broken-launcher stderr, the returned
envelope has `success = false`, the single error
"Simulation timeout (30s exceeded)", and `run.runs`/`run.seed` echoing the
request values (`runSimulation`, lines 182-195). -/
theorem c7_timeout_envelope (runCandidate : PythonCandidate → ProcOutcome)
    (parseJson : String → Option Yaml) (runs : Int) (seed : Option Int)
    (pre : List PythonCandidate) (c : PythonCandidate)
    (rest : List PythonCandidate)
    (hpre : ∀ c' ∈ pre, (runCandidate c').timedOut = false
      ∧ (runCandidate c').exitCode ≠ some 0
      ∧ isBrokenLauncherStderr (runCandidate c').stderr = true)
    (hto : (runCandidate c).timedOut = true) :
    runSimulation runCandidate parseJson runs seed (pre ++ c :: rest)
      = SimResult.envelope
          ⟨false, ["Simulation timeout (30s exceeded)"], [],
           some ⟨some runs, seed⟩⟩ := by
  have hmain : ∀ (pre' : List PythonCandidate) (last : String),
      (∀ c' ∈ pre', (runCandidate c').timedOut = false
        ∧ (runCandidate c').exitCode ≠ some 0
        ∧ isBrokenLauncherStderr (runCandidate c').stderr = true) →
      runSimulationLoop runCandidate parseJson runs seed (pre' ++ c :: rest) last
        = SimResult.envelope (timeoutEnvelope runs seed) := by
    intro pre'
    induction pre' with
    | nil =>
      intro last _
      simp [runSimulationLoop, hto]
    | cons a t ih =>
      intro last hpre'
      obtain ⟨h1, h2, h3⟩ := hpre' a (List.mem_cons_self _ _)
      simp only [List.cons_append, runSimulationLoop, h1, h2, h3]
      simp only [Bool.false_eq_true, if_false, if_pos h2, if_pos h3]
      exact ih _ (fun c' hc' => hpre' c' (List.mem_cons_of_mem _ hc'))
  unfold runSimulation
  rw [if_neg (by simp)]
  exact hmain pre "" hpre

/-- Witness for claim C7: one broken-launcher candidate followed by a
timed-out candidate. -/
theorem c7_witness :
    runSimulation c7WitRunner (fun _ => none) 5000 (some 42)
        ([⟨"bad", []⟩] ++ ⟨"python3", []⟩ :: [])
      = SimResult.envelope
          ⟨false, ["Simulation timeout (30s exceeded)"], [],
           some ⟨some 5000, some 42⟩⟩ :=
  c7_timeout_envelope c7WitRunner (fun _ => none) 5000 (some 42)
    [⟨"bad", []⟩] ⟨"python3", []⟩ [] (by decide) (by decide)

/-- Claim C8: a `runs` value below 100 or above 100000 is rejected with the
range-error envelope before any process is spawned (the `rejected`
constructor is produced by the validation prefix of `POST`), while any
value in 100..100000 passes the runs check and, with a valid currency,
proceeds (`POST`, lines 107-111). -/
theorem c8_runs_range_check (n : Int) :
    postSimulateDecision (some (Yaml.obj
        [("yaml", Yaml.str "x"), ("runs", Yaml.num n),
         ("outputCurrency", Yaml.str "USD")]))
      = (if n < 100 ∨ n > 100000 then
          PostDecision.rejected
            (errorEnvelope "Runs must be between 100 and 100,000" none) 400
        else PostDecision.proceed "x" n none "USD") := by
  have hx : "x".isEmpty = false := rfl
  by_cases h : n < 100 ∨ n > 100000 <;>
    simp [postSimulateDecision, Yaml.getKey, parseIntegerFromNumberOrString,
      isValidCurrency, VALID_CURRENCIES, h, hx]

/-- Claim C9: a simulate request whose body lacks a string `outputCurrency`
is not rejected for an invalid currency: the currency silently defaults to
"USD" and, when the other inputs are valid, processing continues
(`POST`, line 101). -/
theorem c9_missing_currency_defaults_usd (fields : List (String × Yaml))
    (y : String) (n : Int)
    (hy : Yaml.getKey fields "yaml" = some (Yaml.str y))
    (hyne : y.isEmpty = false)
    (hr : parseIntegerFromNumberOrString (Yaml.getKey fields "runs") = some n)
    (h100 : 100 ≤ n) (h1e5 : n ≤ 100000)
    (hcur : ∀ s, Yaml.getKey fields "outputCurrency" ≠ some (Yaml.str s)) :
    postSimulateDecision (some (Yaml.obj fields))
      = PostDecision.proceed y n
          (parseIntegerFromNumberOrString (Yaml.getKey fields "seed")) "USD" := by
  have hcur' : (match Yaml.getKey fields "outputCurrency" with
      | some (Yaml.str s) => s
      | _ => "USD") = "USD" := by
    cases hg : Yaml.getKey fields "outputCurrency" with
    | none => rfl
    | some v =>
      cases v with
      | str s => exact absurd hg (hcur s)
      | nul => rfl
      | bool b => rfl
      | num m => rfl
      | arr l => rfl
      | obj o => rfl
  have hrange : ¬ (n < 100 ∨ n > 100000) := by omega
  simp [postSimulateDecision, hy, hyne, hr, hcur', hrange, isValidCurrency,
    VALID_CURRENCIES]

/-- Witness for claim C9: a body with `yaml` and `runs` but no
`outputCurrency` key proceeds with currency "USD". -/
theorem c9_witness :
    postSimulateDecision (some (Yaml.obj
        [("yaml", Yaml.str "x"), ("runs", Yaml.num 5000)]))
      = PostDecision.proceed "x" 5000
          (parseIntegerFromNumberOrString (Yaml.getKey
            [("yaml", Yaml.str "x"), ("runs", Yaml.num 5000)] "seed")) "USD" :=
  c9_missing_currency_defaults_usd
    [("yaml", Yaml.str "x"), ("runs", Yaml.num 5000)] "x" 5000
    rfl rfl rfl (by decide) (by decide)
    (by intro s h; simp [Yaml.getKey] at h)

theorem mem_descRange {k n : Nat} : k ∈ descRange n ↔ 1 ≤ k ∧ k ≤ n := by
  induction n with
  | zero => simp [descRange]; omega
  | succ m ih =>
    simp only [descRange, List.mem_cons, ih]
    omega

theorem flatMap_congr_mem {α β : Type} {l : List α} {f g : α → List β}
    (h : ∀ x ∈ l, f x = g x) : l.flatMap f = l.flatMap g := by
  induction l with
  | nil => rfl
  | cons x l ih =>
    simp only [List.flatMap_cons]
    rw [h x (List.mem_cons_self x l), ih (fun y hy => h y (List.mem_cons_of_mem x hy))]

theorem takeWhile_append_stop (p : Char → Bool) (post : List Char)
    (hpost : ∀ c t, post = c :: t → p c = false) :
    ∀ a : List Char, (a ++ post).takeWhile p = a.takeWhile p := by
  intro a
  induction a with
  | nil =>
    cases hp : post with
    | nil => rfl
    | cons c t => simp [List.takeWhile_cons, hpost c t hp]
  | cons x a ih =>
    cases hx : p x with
    | false => simp [List.takeWhile_cons, hx]
    | true => simp [List.takeWhile_cons, hx, ih]

theorem isPrefixOf_append_of_le (l a post : List Char) (h : l.length ≤ a.length) :
    l.isPrefixOf (a ++ post) = l.isPrefixOf a := by
  rw [Bool.eq_iff_iff]
  simp only [List.isPrefixOf_iff_prefix]
  constructor
  · intro hpre
    rw [List.prefix_iff_eq_take] at hpre ⊢
    rw [List.take_append_eq_append_take] at hpre
    have h0 : l.length - a.length = 0 := by omega
    rw [h0] at hpre
    simpa using hpre
  · intro hpre
    exact hpre.trans (List.prefix_append a post)

theorem isPrefixOf_append_false_of_long (l a : List Char) (c : Char) (t : List Char)
    (hlen : a.length < l.length) (hl : ∀ x ∈ l, nonSpace x = true)
    (hc : nonSpace c = false) :
    l.isPrefixOf (a ++ c :: t) = false := by
  rw [Bool.eq_false_iff]
  intro hpre
  have h1 : l <+: a ++ c :: t := List.isPrefixOf_iff_prefix.mp hpre
  rw [List.prefix_iff_eq_take, List.take_append_eq_append_take] at h1
  have h2 : c ∈ l := by
    rw [h1]
    refine List.mem_append.mpr (Or.inr ?_)
    cases hk : l.length - a.length with
    | zero => omega
    | succ k => rw [List.take_succ_cons]; exact List.mem_cons_self _ _
  have h3 := hl c h2
  rw [hc] at h3
  exact Bool.false_ne_true h3

theorem matchLens_append_spacefree (post : List Char)
    (hpost : post = [] ∨ ∃ c t, post = c :: t ∧ nonSpace c = false) :
    ∀ toks : List RTok, (∀ t ∈ toks, tokSpaceFree t) →
    ∀ a : List Char, (∀ c ∈ a, nonSpace c = true) →
      matchLens toks (a ++ post) = matchLens toks a := by
  intro toks
  induction toks with
  | nil => intro _ a _; rfl
  | cons tok rest ih =>
    intro hts a ha
    have hrest : ∀ t ∈ rest, tokSpaceFree t := fun t ht => hts t (List.mem_cons_of_mem _ ht)
    have htok : tokSpaceFree tok := hts tok (List.mem_cons_self _ _)
    cases tok with
    | lit l =>
      have hl : ∀ c ∈ l, nonSpace c = true := htok
      by_cases hlen : l.length ≤ a.length
      · simp only [matchLens]
        rw [isPrefixOf_append_of_le l a post hlen]
        cases hp : l.isPrefixOf a with
        | false => simp
        | true =>
          simp only [if_true]
          have hdrop : (a ++ post).drop l.length = a.drop l.length ++ post := by
            rw [List.drop_append_eq_append_drop]
            have h0 : l.length - a.length = 0 := by omega
            rw [h0, List.drop_zero]
          rw [hdrop, ih hrest (a.drop l.length) (fun c hc => ha c (List.mem_of_mem_drop hc))]
      · push_neg at hlen
        have hA : l.isPrefixOf a = false := by
          rw [Bool.eq_false_iff]
          intro hp
          exact absurd (List.isPrefixOf_iff_prefix.mp hp).length_le (by omega)
        have hB : l.isPrefixOf (a ++ post) = false := by
          rcases hpost with h0 | ⟨c, t, hct, hc⟩
          · rw [h0, List.append_nil]; exact hA
          · rw [hct]; exact isPrefixOf_append_false_of_long l a c t hlen hl hc
        simp [matchLens, hA, hB]
    | cls p =>
      have hp : ∀ c, p c = true → nonSpace c = true := htok
      cases a with
      | nil =>
        rcases hpost with h0 | ⟨c, t, hct, hc⟩
        · rw [h0]; rfl
        · have hpc : p c = false := by
            cases hpc : p c with
            | false => rfl
            | true => rw [hp c hpc] at hc; exact absurd hc (by simp)
          rw [List.nil_append, hct]
          simp [matchLens, hpc]
      | cons x a2 =>
        simp only [List.cons_append, matchLens]
        cases hpx : p x with
        | false => simp
        | true =>
          simp only [if_true]
          rw [ih hrest a2 (fun c hc => ha c (List.mem_cons_of_mem _ hc))]
    | plus p =>
      have hp : ∀ c, p c = true → nonSpace c = true := htok
      have htw : (a ++ post).takeWhile p = a.takeWhile p := by
        apply takeWhile_append_stop
        intro c t hct
        rcases hpost with h0 | ⟨c2, t2, hct2, hc2⟩
        · rw [h0] at hct; cases hct
        · rw [hct2] at hct
          injection hct with h1 h2
          subst h1
          cases hpc : p c2 with
          | false => rfl
          | true => rw [hp c2 hpc] at hc2; exact absurd hc2 (by simp)
      simp only [matchLens, htw]
      apply flatMap_congr_mem
      intro k hk
      have hk2 := mem_descRange.mp hk
      have hkle : k ≤ a.length :=
        le_trans hk2.2 (List.Sublist.length_le (List.takeWhile_sublist p))
      have hdrop : (a ++ post).drop k = a.drop k ++ post := by
        rw [List.drop_append_eq_append_drop]
        have h0 : k - a.length = 0 := by omega
        rw [h0, List.drop_zero]
      rw [hdrop, ih hrest (a.drop k) (fun c hc => ha c (List.mem_of_mem_drop hc))]

theorem matchAt_append_spacefree (pats : List (List RTok))
    (hps : ∀ toks ∈ pats, ∀ t ∈ toks, tokSpaceFree t)
    (post : List Char) (hpost : post = [] ∨ ∃ c t, post = c :: t ∧ nonSpace c = false)
    (a : List Char) (ha : ∀ c ∈ a, nonSpace c = true) :
    matchAt pats (a ++ post) = matchAt pats a := by
  induction pats with
  | nil => rfl
  | cons toks pats ih =>
    have ih2 := ih (fun t ht => hps t (List.mem_cons_of_mem _ ht))
    simp only [matchAt, List.findSome?_cons] at ih2 ⊢
    rw [matchLens_append_spacefree post hpost toks (hps toks (List.mem_cons_self _ _)) a ha]
    cases (matchLens toks a).head? with
    | some n => rfl
    | none => exact ih2

theorem matchLens_lit_false (l : List Char) (rest : List RTok) (s : List Char)
    (h : l.isPrefixOf s = false) : matchLens (RTok.lit l :: rest) s = [] := by
  simp [matchLens, h]

theorem isPrefixOf_cons_ne (x c : Char) (l s : List Char) (h : c ≠ x) :
    (x :: l).isPrefixOf (c :: s) = false := by
  have hx : (x == c) = false := beq_eq_false_iff_ne.mpr (fun he => h he.symm)
  simp [List.isPrefixOf, hx]

theorem matchAt_tmpValidator_none (c : Char) (s : List Char) (hc : c ≠ '/') :
    matchAt patsTmpValidator (c :: s) = none := by
  have h1 : ("/var/".data).isPrefixOf (c :: s) = false := isPrefixOf_cons_ne _ c _ s hc
  have h2 : ("/tmp/".data).isPrefixOf (c :: s) = false := isPrefixOf_cons_ne _ c _ s hc
  simp [matchAt, patsTmpValidator, toksTmpValVar, toksTmpValTmp, List.findSome?,
        matchLens_lit_false _ _ _ h1, matchLens_lit_false _ _ _ h2]

theorem matchAt_tmpYaml_none (c : Char) (s : List Char) (hc : c ≠ '/') :
    matchAt patsTmpYaml (c :: s) = none := by
  have h1 : ("/var/".data).isPrefixOf (c :: s) = false := isPrefixOf_cons_ne _ c _ s hc
  have h2 : ("/tmp/".data).isPrefixOf (c :: s) = false := isPrefixOf_cons_ne _ c _ s hc
  simp [matchAt, patsTmpYaml, toksTmpYamlVar, toksTmpYamlTmp, List.findSome?,
        matchLens_lit_false _ _ _ h1, matchLens_lit_false _ _ _ h2]

theorem matchLens_backslash_none (p : Char → Bool) (l : List Char) (rest : List RTok)
    (hl : '\\' ∈ l) (s : List Char) (hs : '\\' ∉ s) :
    matchLens (RTok.cls p :: RTok.lit l :: rest) s = [] := by
  cases s with
  | nil => rfl
  | cons c t =>
    have hpre : l.isPrefixOf t = false := by
      rw [Bool.eq_false_iff]
      intro hp
      exact hs (List.mem_cons_of_mem c ((List.isPrefixOf_iff_prefix.mp hp).subset hl))
    cases hpc : p c with
    | false =>
      show (if p c = true then (matchLens (RTok.lit l :: rest) t).map (· + 1) else []) = []
      rw [hpc]
      simp
    | true =>
      have hinner : matchLens (RTok.lit l :: rest) t = [] := matchLens_lit_false _ _ _ hpre
      show (if p c = true then (matchLens (RTok.lit l :: rest) t).map (· + 1) else []) = []
      rw [hpc, hinner]
      simp

theorem matchAt_win_none (c : Char) (s : List Char) (h : '\\' ∉ c :: s) :
    matchAt patsWin (c :: s) = none := by
  have h1 : matchLens (toksWinBranch "Users") (c :: s) = [] := by
    simp only [toksWinBranch]
    exact matchLens_backslash_none _ _ _ (by decide) _ h
  have h2 : matchLens (toksWinBranch "Windows") (c :: s) = [] := by
    simp only [toksWinBranch]
    exact matchLens_backslash_none _ _ _ (by decide) _ h
  have h3 : matchLens (toksWinBranch "Temp") (c :: s) = [] := by
    simp only [toksWinBranch]
    exact matchLens_backslash_none _ _ _ (by decide) _ h
  simp [matchAt, patsWin, List.findSome?, h1, h2, h3]

theorem replaceScan_no_match (pats : List (List RTok)) (repl : List Char)
    (P : List Char → Prop)
    (hstep : ∀ c t, P (c :: t) → matchAt pats (c :: t) = none ∧ P t) :
    ∀ fuel s, P s → replaceScan pats repl fuel s = s := by
  intro fuel
  induction fuel with
  | zero => intro s _; rfl
  | succ f ih =>
    intro s hs
    cases s with
    | nil => rfl
    | cons c t =>
      obtain ⟨hm, ht⟩ := hstep c t hs
      simp only [replaceScan, hm]
      rw [ih t ht]

theorem replaceScan_skip (pats : List (List RTok)) (repl : List Char) :
    ∀ pre : List Char, (∀ c ∈ pre, ∀ t, matchAt pats (c :: t) = none) →
    ∀ fuel s, replaceScan pats repl (pre.length + fuel) (pre ++ s)
      = pre ++ replaceScan pats repl fuel s := by
  intro pre
  induction pre with
  | nil => intro _ fuel s; simp
  | cons c pre ih =>
    intro h fuel s
    have hc := h c (List.mem_cons_self _ _) (pre ++ s)
    have harith : (c :: pre).length + fuel = (pre.length + fuel) + 1 := by
      simp only [List.length_cons]; omega
    rw [harith]
    show replaceScan pats repl ((pre.length + fuel) + 1) (c :: (pre ++ s)) = _
    simp only [replaceScan, hc]
    rw [ih (fun x hx t => h x (List.mem_cons_of_mem _ hx) t) fuel s]
    simp

theorem replaceScan_single (pats : List (List RTok)) (repl : List Char)
    (pre : List Char) (hpre : ∀ c ∈ pre, ∀ t, matchAt pats (c :: t) = none)
    (m : Char) (mid post : List Char)
    (hmid : matchAt pats ((m :: mid) ++ post) = some (m :: mid).length)
    (P : List Char → Prop)
    (hstep : ∀ c t, P (c :: t) → matchAt pats (c :: t) = none ∧ P t)
    (hP : P post) :
    replaceAllToks pats repl (pre ++ ((m :: mid) ++ post)) = pre ++ (repl ++ post) := by
  unfold replaceAllToks
  have hlen : (pre ++ ((m :: mid) ++ post)).length
      = pre.length + ((mid.length + post.length) + 1) := by
    simp only [List.length_append, List.length_cons]
    omega
  rw [hlen, replaceScan_skip pats repl pre hpre ((mid.length + post.length) + 1)
        ((m :: mid) ++ post)]
  congr 1
  have hmid2 : matchAt pats (m :: (mid ++ post)) = some (mid.length + 1) := by
    rw [show m :: (mid ++ post) = (m :: mid) ++ post from rfl, hmid]
    simp [List.length_cons]
  show replaceScan pats repl ((mid.length + post.length) + 1) (m :: (mid ++ post)) = repl ++ post
  simp only [replaceScan, hmid2]
  have hdrop : (m :: (mid ++ post)).drop (mid.length + 1) = post := by
    rw [List.drop_succ_cons, List.drop_left]
  rw [hdrop, replaceScan_no_match pats repl P hstep (mid.length + post.length) post hP]

theorem isSubChars_nil_pat : ∀ t : List Char, isSubChars [] t = true := by
  intro t
  cases t <;> simp [isSubChars, List.isPrefixOf]

theorem isSubChars_sandwich (pat : List Char) :
    ∀ pre post : List Char, isSubChars pat (pre ++ (pat ++ post)) = true := by
  intro pre
  induction pre with
  | nil =>
    intro post
    rw [List.nil_append]
    cases hcat : pat ++ post with
    | nil =>
      have hp : pat = [] := (List.append_eq_nil.mp hcat).1
      simp [isSubChars, hp]
    | cons c t =>
      have hpre : pat.isPrefixOf (c :: t) = true := by
        rw [← hcat]
        exact List.isPrefixOf_iff_prefix.mpr (List.prefix_append pat post)
      simp [isSubChars, hpre]
  | cons x pre ih =>
    intro post
    rw [List.cons_append]
    simp only [isSubChars, Bool.or_eq_true]
    exact Or.inr (ih post)

theorem mem_of_isSubChars {pat : List Char} : ∀ {s : List Char},
    isSubChars pat s = true → ∀ {c : Char}, c ∈ pat → c ∈ s := by
  intro s
  induction s with
  | nil =>
    intro h c hc
    simp only [isSubChars, List.isEmpty_iff] at h
    rw [h] at hc
    cases hc
  | cons x t ih =>
    intro h c hc
    simp only [isSubChars, Bool.or_eq_true] at h
    rcases h with h | h
    · exact (List.isPrefixOf_iff_prefix.mp h).subset hc
    · exact List.mem_cons_of_mem x (ih h hc)

theorem isSubChars_false_of_not_mem {pat s : List Char} {c : Char}
    (hc : c ∈ pat) (hs : c ∉ s) : isSubChars pat s = false := by
  rw [Bool.eq_false_iff]
  intro h
  exact hs (mem_of_isSubChars h hc)

theorem isSubChars_append_right {pat : List Char} : ∀ {s : List Char} (t : List Char),
    isSubChars pat s = true → isSubChars pat (s ++ t) = true := by
  intro s
  induction s with
  | nil =>
    intro t h
    simp only [isSubChars, List.isEmpty_iff] at h
    rw [h, List.nil_append]
    exact isSubChars_nil_pat t
  | cons x s ih =>
    intro t h
    simp only [isSubChars, Bool.or_eq_true] at h ⊢
    rcases h with h | h
    · exact Or.inl (List.isPrefixOf_iff_prefix.mpr
        (((List.isPrefixOf_iff_prefix.mp h)).trans (List.prefix_append (x :: s) t)))
    · exact Or.inr (ih t h)

theorem spacefree_patsTmpValidator :
    ∀ toks ∈ patsTmpValidator, ∀ t ∈ toks, tokSpaceFree t := by
  intro toks htoks t ht
  simp only [patsTmpValidator, List.mem_cons, List.not_mem_nil, or_false] at htoks
  rcases htoks with h | h <;> subst h <;>
    simp only [toksTmpValVar, toksTmpValTmp, List.mem_cons, List.not_mem_nil, or_false] at ht <;>
    rcases ht with h | h | h | h | h <;> subst h <;>
    first
      | exact fun _ hx => hx
      | (simp only [tokSpaceFree]; decide)

/-- C6 counterexample: the input
`failed CRML 1.0 validation: /tmp/abc123/crml-validator/crml-999.yaml`
contains the temp path, yet its sanitization does not contain "your bundle":
after the path is scrubbed, the message still matches the failed-CRML branch,
which replaces the whole string by a template without the placeholder.  So the
claim as stated (every error string containing such a path sanitizes to a
string containing "your bundle") is false. -/
theorem c6_counterexample :
    isSubChars c6Path.data c6BadInput.data = true
    ∧ isSubChars yourBundle (sanitizeErrorMessage c6BadInput).data = false := by
  decide

/-- C6 (amended): sanitizing an error string of the form
`pre ++ "/tmp/abc123/crml-validator/crml-999.yaml" ++ post`, where `pre` and
`post` contain no slash and no backslash, `post` is empty or starts with a
whitespace character, and the path-scrubbed message
`pre ++ "your bundle" ++ post` triggers neither the failed-CRML rewrite nor
the Additional-property rewrite, yields a string that contains the literal
substring "your bundle" and does not contain the original path.  (The
unamended claim is refuted by the counterexample above.) -/
theorem c6_sanitize_path_replaced (pre post : List Char)
    (hpre : ∀ c ∈ pre, c ≠ '/' ∧ c ≠ '\\')
    (hpost : ∀ c ∈ post, c ≠ '/' ∧ c ≠ '\\')
    (hpostWs : post = [] ∨ ∃ c t, post = c :: t ∧ c.isWhitespace = true)
    (hNoCrml : (isSubChars "failed CRML".data (pre ++ (yourBundle ++ post))
        && isSubChars "validation".data (pre ++ (yourBundle ++ post))) = false)
    (hNoAdd : (isSubChars "Additional property".data (pre ++ (yourBundle ++ post))
        || isSubChars "additional property".data (pre ++ (yourBundle ++ post))) = false) :
    isSubChars yourBundle
        (sanitizeErrorMessage (String.mk (pre ++ (c6Path.data ++ post)))).data = true
    ∧ isSubChars c6Path.data
        (sanitizeErrorMessage (String.mk (pre ++ (c6Path.data ++ post)))).data = false := by
  have hyb : ∀ c ∈ yourBundle, c ≠ '/' ∧ c ≠ '\\' := by decide
  have hpost1 : post = [] ∨ ∃ c t, post = c :: t ∧ nonSpace c = false := by
    rcases hpostWs with h | ⟨c, t, hct, hw⟩
    · exact Or.inl h
    · exact Or.inr ⟨c, t, hct, by simp [nonSpace, hw]⟩
  have hmid : matchAt patsTmpValidator (c6Path.data ++ post) = some c6Path.data.length := by
    rw [matchAt_append_spacefree patsTmpValidator spacefree_patsTmpValidator post hpost1
          c6Path.data (by decide)]
    decide
  have hstep1 : replaceAllToks patsTmpValidator yourBundle (pre ++ (c6Path.data ++ post))
      = pre ++ (yourBundle ++ post) :=
    replaceScan_single patsTmpValidator yourBundle pre
      (fun c hc t => matchAt_tmpValidator_none c t (hpre c hc).1)
      '/' "tmp/abc123/crml-validator/crml-999.yaml".data post
      hmid
      (fun s => ∀ c ∈ s, c ≠ '/')
      (fun c t hp => ⟨matchAt_tmpValidator_none c t (hp c (List.mem_cons_self _ _)),
        fun x hx => hp x (List.mem_cons_of_mem _ hx)⟩)
      (fun c hc => (hpost c hc).1)
  have hnoslash : ∀ c ∈ pre ++ (yourBundle ++ post), c ≠ '/' := by
    intro c hc
    rcases List.mem_append.mp hc with h | h
    · exact (hpre c h).1
    · rcases List.mem_append.mp h with h | h
      · exact (hyb c h).1
      · exact (hpost c h).1
  have hnoback : ¬ '\\' ∈ pre ++ (yourBundle ++ post) := by
    intro hc
    rcases List.mem_append.mp hc with h | h
    · exact (hpre _ h).2 rfl
    · rcases List.mem_append.mp h with h | h
      · exact (hyb _ h).2 rfl
      · exact (hpost _ h).2 rfl
  have hstep2 : replaceAllToks patsTmpYaml yourBundle (pre ++ (yourBundle ++ post))
      = pre ++ (yourBundle ++ post) :=
    replaceScan_no_match patsTmpYaml yourBundle (fun s => ∀ c ∈ s, c ≠ '/')
      (fun c t hp => ⟨matchAt_tmpYaml_none c t (hp c (List.mem_cons_self _ _)),
        fun x hx => hp x (List.mem_cons_of_mem _ hx)⟩)
      _ _ hnoslash
  have hstep3 : replaceAllToks patsWin yourBundle (pre ++ (yourBundle ++ post))
      = pre ++ (yourBundle ++ post) :=
    replaceScan_no_match patsWin yourBundle (fun s => ¬ '\\' ∈ s)
      (fun c t hp => ⟨matchAt_win_none c t hp,
        fun hx => hp (List.mem_cons_of_mem _ hx)⟩)
      _ _ hnoback
  have hsan : sanitizeErrorMessage (String.mk (pre ++ (c6Path.data ++ post)))
      = String.mk (if isSubChars "is not allowed".data (pre ++ (yourBundle ++ post)) then
          (pre ++ (yourBundle ++ post))
            ++ " Check the CRML schema documentation for valid fields.".data
        else pre ++ (yourBundle ++ post)) := by
    simp only [sanitizeErrorMessage]
    rw [hstep1, hstep2, hstep3, hNoCrml]
    simp only [Bool.false_eq_true, if_false]
    rw [hNoAdd]
    simp only [Bool.false_eq_true, if_false]
  rw [hsan]
  have hpathmem : '/' ∈ c6Path.data := by decide
  by_cases hna : isSubChars "is not allowed".data (pre ++ (yourBundle ++ post)) = true
  · rw [if_pos hna]
    constructor
    · exact isSubChars_append_right _ (isSubChars_sandwich yourBundle pre post)
    · refine isSubChars_false_of_not_mem hpathmem ?_
      intro hm
      rcases List.mem_append.mp hm with h | h
      · exact hnoslash _ h rfl
      · revert h; decide
  · rw [if_neg hna]
    constructor
    · exact isSubChars_sandwich yourBundle pre post
    · exact isSubChars_false_of_not_mem hpathmem (fun hm => hnoslash _ hm rfl)

/-- Witness for the amended C6 theorem at `pre = "Error: "`,
`post = " is invalid"`. -/
theorem c6_witness :
    isSubChars yourBundle
      (sanitizeErrorMessage
        (String.mk ("Error: ".data ++ (c6Path.data ++ " is invalid".data)))).data = true
    ∧ isSubChars c6Path.data
      (sanitizeErrorMessage
        (String.mk ("Error: ".data ++ (c6Path.data ++ " is invalid".data)))).data = false :=
  c6_sanitize_path_replaced "Error: ".data " is invalid".data
    (by decide) (by decide)
    (Or.inr ⟨' ', "is invalid".data, by decide, by decide⟩)
    (by decide) (by decide)
